import Mathlib

/-!
Shallow embedding of the `sogenactif` Go package (sogen.go and
sogen/config.go) together with proofs about its specification.

Modelling conventions:
* Go strings are `List Char` (named `Str` below); `str` injects Lean string
  literals.
* Go `float64` values are modelled as exact rationals (`ℚ`); binary
  floating-point rounding is not modelled.
* Go slice/index panics are modelled by `Option`: `none` is a panic.
* The filesystem and the stdout of the two proprietary binaries are oracle
  parameters: `os.Stat` is a boolean oracle over paths, and each function
  that shells out takes the child's stdout as an explicit argument.
* `fmt.Fprintf` calls are recorded as events carrying the format string and
  the `%s` arguments; the formatting engine itself is not modelled.
-/

/-- Go strings, as lists of characters. -/
abbrev Str := List Char

/-- Inject a Lean string literal into the model's string type. -/
def str (s : String) : Str := s.data

/-- Model of Go `strings.Split(s, "!")`: split on the bang character.
`strings.Split` always returns at least one (possibly empty) field. -/
def splitBang : Str → List Str
  | [] => [[]]
  | c :: cs =>
    match splitBang cs with
    | [] => [[c]]
    | f :: rest => if c = '!' then [] :: f :: rest else (c :: f) :: rest

/-- Model of Go `strings.Trim(s, " ")`: strip leading and trailing space
characters (only the space character, as in the source). -/
def trimSpaces (s : Str) : Str :=
  ((s.dropWhile (fun c => c = ' ')).reverse.dropWhile (fun c => c = ' ')).reverse

/-- Decimal digits of a natural number, most significant first
(model of the digit emission inside Go `strconv.Itoa`). -/
def natToStr (n : ℕ) : Str :=
  if h : n < 10 then [Char.ofNat (48 + n)]
  else natToStr (n / 10) ++ [Char.ofNat (48 + n % 10)]
termination_by n
decreasing_by
  exact Nat.div_lt_self (by omega) (by omega)

/-- Model of Go `strconv.Itoa` on a mathematical integer. -/
def intToStr (i : ℤ) : Str :=
  if i < 0 then '-' :: natToStr i.natAbs else natToStr i.natAbs

/-- Go's conversion `int(x)` on a float truncates toward zero; on the exact
rational model this is truncated division of numerator by denominator. -/
def goTrunc (q : ℚ) : ℤ := q.num.tdiv (q.den : ℤ)

/-- Is `c` a decimal digit? -/
def isDigitCh (c : Char) : Bool := '0' ≤ c ∧ c ≤ '9'

/-- Numeric value of a digit character. -/
def digitVal (c : Char) : ℕ := c.toNat - 48

/-- Value of a digit string, most significant first (`none` when empty or
containing a non-digit). -/
def digitsVal : Str → Option ℕ
  | [] => none
  | l => if l.all isDigitCh then some (l.foldl (fun a c => 10 * a + digitVal c) 0) else none

/-- Model of Go `strconv.ParseFloat` restricted to plain decimal literals
(optional sign, digits with at most one decimal point, at least one digit).
The payment server emits plain decimals; exponent, hexadecimal, infinity and
underscore forms accepted by `ParseFloat` are not modelled and yield `none`.
The `bitSize = 32` rounding of the source is not modelled (exact rationals). -/
def parseFloatDec (s : Str) : Option ℚ :=
  let (neg, body) :=
    match s with
    | '-' :: rest => (true, rest)
    | '+' :: rest => (false, rest)
    | l => (false, l)
  let intPart := body.takeWhile isDigitCh
  let rest := body.dropWhile isDigitCh
  let fracPart? : Option Str :=
    match rest with
    | [] => some []
    | '.' :: fs => if fs.all isDigitCh then some fs else none
    | _ => none
  match fracPart? with
  | none => none
  | some fracPart =>
    if intPart = [] ∧ fracPart = [] then none
    else
      let iv : ℕ := intPart.foldl (fun a c => 10 * a + digitVal c) 0
      let fv : ℕ := fracPart.foldl (fun a c => 10 * a + digitVal c) 0
      let num : ℤ := (if neg then -1 else 1) * (iv * 10 ^ fracPart.length + fv)
      some (mkRat num (10 ^ fracPart.length))

/-- A parsed wall-clock date-time with its zone-offset text, the result of
`time.Parse(time.RFC3339, ...)` in the model. -/
structure DateTime where
  year : ℕ
  month : ℕ
  day : ℕ
  hour : ℕ
  minute : ℕ
  second : ℕ
  offset : Str
deriving DecidableEq, Repr

/-- Gregorian leap-year test, as used by Go `time.daysIn`. -/
def isLeap (y : ℕ) : Bool := y % 4 = 0 ∧ (y % 100 ≠ 0 ∨ y % 400 = 0)

/-- Days in a month, as validated by Go `time.Parse`. -/
def daysIn (y m : ℕ) : ℕ :=
  if m = 2 then (if isLeap y then 29 else 28)
  else if m = 4 ∨ m = 6 ∨ m = 9 ∨ m = 11 then 30
  else 31

/-- Model of the range validation `time.Parse` performs on the pieces of an
RFC3339 timestamp built from fourteen digit characters `YYYYMMDDHHMMSS`.
Returns `none` on a non-digit character or an out-of-range component. -/
def parseDT14 (s : Str) (offset : Str) : Option DateTime :=
  match digitsVal (s.take 4), digitsVal ((s.drop 4).take 2),
        digitsVal ((s.drop 6).take 2), digitsVal ((s.drop 8).take 2),
        digitsVal ((s.drop 10).take 2), digitsVal ((s.drop 12).take 2) with
  | some y, some mo, some d, some h, some mi, some sec =>
    if 1 ≤ mo ∧ mo ≤ 12 ∧ 1 ≤ d ∧ d ≤ daysIn y mo ∧ h ≤ 23 ∧ mi ≤ 59 ∧ sec ≤ 59
    then some ⟨y, mo, d, h, mi, sec, offset⟩ else none
  | _, _, _, _, _, _ => none

/-- Model of `formatToRFC3339` (sogen.go): slices `dt[:4]`, `dt[4:6]`, ...,
`dt[12:14]` into an RFC3339 string and parses it.  The outer `Option` is the
Go slice panic when `dt` is shorter than 14 characters; the inner `Option` is
the `time.Parse` error. -/
def formatToRFC3339 (dt : Str) (offset : Str) : Option (Option DateTime) :=
  if dt.length < 14 then none
  else some (parseDT14 (dt.take 14) offset)

/-- A `fmt.Fprintf` call observed on the output writer.  `evt fmt args`
records the format string and its `%s` arguments verbatim; `convErr which`
records the write of `which ++ " conversion error: " ++ e.Error()` where the
Go library error text `e.Error()` is abstracted away. -/
inductive WriteEvt where
  | evt (format : Str) (args : List Str)
  | convErr (which : Str)
deriving DecidableEq, Repr

/-- `Customer` (sogen.go).  The two URL overrides are modelled by their
`String()` rendering, `none` standing for a nil pointer. -/
structure Customer where
  id : Str
  caddie : Str
  cancelUrl : Option Str
  returnUrl : Option Str
deriving DecidableEq, Repr

/-- `Config` (sogen.go).  URLs are modelled by their rendered text, `none`
standing for a nil `*url.URL`. -/
structure Config where
  debug : Bool
  logoPath : Str
  libraryPath : Str
  merchantsRootDir : Str
  mediaPath : Str
  merchantId : Str
  merchantCountry : Str
  merchantCurrencyCode : Str
  autoResponseUrl : Option Str
  cancelUrl : Option Str
  returnUrl : Option Str
deriving DecidableEq, Repr

/-- `Transaction` (sogen.go), with the amount as an exact rational. -/
structure Transaction where
  customer : Customer
  amount : ℚ
deriving DecidableEq, Repr

/-- `NewTransaction` (sogen.go): a nil customer or a null amount returns a
nil transaction. -/
def NewTransaction (c : Option Customer) (amount : ℚ) : Option Transaction :=
  match c with
  | none => none
  | some cu => if amount = 0 then none else some ⟨cu, amount⟩

/-- `Sogen` (sogen.go).  `certBase` and `parcomBase` carry the fields the
source calls the certificate and parameters path stems. -/
structure Sogen where
  config : Config
  requestFile : Str
  responseFile : Str
  merchantBaseDir : Str
  certBase : Str
  parcomBase : Str
  parametersSogenActif : Str
  pathFile : Str
deriving DecidableEq, Repr

/-- Model of Go `path.Join` on two clean components.  The `path.Clean`
normalisation of duplicate separators and dot segments is not modelled. -/
def pathJoin (a b : Str) : Str := a ++ '/' :: b

/-- A `key=value` command-line parameter (`fmt.Sprintf("%s=%s", k, v)`). -/
def kv (k v : Str) : Str := k ++ '=' :: v

/-- `requestParams` (sogen.go).  The Go source builds a `map[string]string`
and then ranges over it, so the order of the produced slice is unspecified at
runtime; the model lists the entries in the source's insertion order and all
theorems about it are stated order-insensitively. -/
def requestParams (s : Sogen) (t : Transaction) : List Str :=
  [kv (str "merchant_id") s.config.merchantId,
   kv (str "merchant_country") s.config.merchantCountry,
   kv (str "amount") (intToStr (goTrunc (t.amount * 100))),
   kv (str "currency_code") s.config.merchantCurrencyCode,
   kv (str "pathfile") s.pathFile,
   kv (str "caddie") t.customer.caddie]
  ++ (if t.customer.id ≠ [] then [kv (str "customer_id") t.customer.id] else [])
  ++ (match t.customer.cancelUrl with
      | some u => [kv (str "cancel_return_url") u]
      | none => [])
  ++ (match t.customer.returnUrl with
      | some u => [kv (str "normal_return_url") u]
      | none => [])

/-- `Payment` (sogen.go), with the amount as an exact rational and the two
dates as parsed `DateTime` values. -/
structure Payment where
  merchantId : Str
  merchantCountry : Str
  amount : ℚ
  transactionId : Str
  paymentMeans : Str
  transmissionDate : DateTime
  paymentDate : DateTime
  responseCode : Str
  paymentCertificate : Str
  authorizationId : Str
  currencyCode : Str
  cardNumber : Str
  cvvFlag : Str
  cvvResponseCode : Str
  bankResponseCode : Str
  complementaryCode : Str
  complementaryInfo : Str
  returnContext : Str
  caddie : Str
  receiptComplement : Str
  merchantLanguage : Str
  language : Str
  customerId : Str
  customerEmail : Str
  customerIpAddress : Str
  captureDay : Str
  captureMode : Str
  data : Str
  orderValidity : Str
  scoreValue : Str
  scoreColor : Str
  scoreInfo : Str
  scoreThreshold : Str
  scoreProfile : Str
deriving DecidableEq, Repr

/-- An incoming `*http.Request`, reduced to its POST form: an association
list of form names to values, as consulted by `r.PostFormValue`. -/
structure Request where
  postForm : List (Str × Str)
deriving DecidableEq, Repr

/-- Model of Go `r.PostFormValue(key)`: the first value for the key, or the
empty string when the key is absent. -/
def postFormValue (r : Request) (key : Str) : Str :=
  match r.postForm.find? (fun p => p.fst = key) with
  | some p => p.snd
  | none => []

/-- What `Checkout` (sogen.go) did: the command-line arguments passed to the
request binary and the `Fprintf` calls made on the writer. -/
structure CheckoutResult where
  invokedArgs : List Str
  writes : List WriteEvt
deriving DecidableEq, Repr

/-- `Checkout` (sogen.go).  `stdout` is the oracle standard output of the
request binary.  `none` models the index-out-of-range panic raised when
`strings.Split(out, "!")` has no field at index 1, 2 or 3. -/
def Checkout (s : Sogen) (t : Transaction) (stdout : Str) : Option CheckoutResult := do
  let args := requestParams s t
  let res := splitBang stdout
  let code ← res.get? 1
  let err ← res.get? 2
  let body ← res.get? 3
  if code = [] ∧ err = [] then
    pure ⟨args, [.evt (str "error: request executable not found!") []]⟩
  else if code ≠ str "0" then
    pure ⟨args, [.evt (str "error using API: %s") [err]]⟩
  else
    pure ⟨args, [.evt err [], .evt body []]⟩

/-- What `HandlePayment` (sogen.go) did: the arguments passed to the
response binary (`none` when it was never invoked), the `Fprintf` calls made
on the writer, and the returned `*Payment` (`none` for nil). -/
structure HPResult where
  invokedArgs : Option (List Str)
  writes : List WriteEvt
  payment : Option Payment
deriving DecidableEq, Repr

/-- The composite-literal that builds the `Payment` in `HandlePayment`
(sogen.go): each field is taken from a fixed index of `v := res[3:]`.  Go
evaluates the indexes `v[0] .. v[34]` eagerly, so the caller guards
`v.length ≥ 35` (otherwise the access panics). -/
def mkPayment (v : List Str) (amount : ℚ) (tDate pDate : DateTime) : Payment :=
  { merchantId := v.getD 0 [], merchantCountry := v.getD 1 [], amount := amount,
    transactionId := v.getD 3 [], paymentMeans := v.getD 4 [],
    transmissionDate := tDate, paymentDate := pDate,
    paymentCertificate := v.getD 8 [], responseCode := v.getD 9 [],
    authorizationId := v.getD 10 [], currencyCode := v.getD 11 [],
    cardNumber := v.getD 12 [], cvvFlag := v.getD 13 [],
    cvvResponseCode := v.getD 14 [], bankResponseCode := v.getD 15 [],
    complementaryCode := v.getD 16 [], complementaryInfo := v.getD 17 [],
    returnContext := v.getD 18 [], caddie := v.getD 19 [],
    receiptComplement := v.getD 20 [], merchantLanguage := v.getD 21 [],
    language := v.getD 22 [], customerId := v.getD 23 [],
    customerEmail := v.getD 24 [], customerIpAddress := v.getD 25 [],
    captureDay := v.getD 26 [], captureMode := v.getD 27 [],
    data := v.getD 28 [], orderValidity := v.getD 29 [],
    scoreValue := v.getD 30 [], scoreColor := v.getD 31 [],
    scoreInfo := v.getD 32 [], scoreThreshold := v.getD 33 [],
    scoreProfile := v.getD 34 [] }

/-- `HandlePayment` (sogen.go).  `r` is the incoming request (`none` for
nil) and `stdout` the oracle standard output of the response binary.  The
outer `Option` models the index-out-of-range and slice panics. -/
def HandlePayment (s : Sogen) (r : Option Request) (stdout : Str) : Option HPResult := do
  match r with
  | none => pure ⟨none, [], none⟩
  | some req =>
    let data := postFormValue req (str "DATA")
    let args := [str "pathfile=" ++ s.pathFile, str "message=" ++ data]
    let res := splitBang stdout
    let code ← res.get? 1
    let err ← res.get? 2
    if code = [] ∧ err = [] then
      pure ⟨some args, [.evt (str "error: request executable not found!") []], none⟩
    else if code ≠ str "0" then
      pure ⟨some args, [.evt (str "error using API: %s") [err]], none⟩
    else
      let v := res.drop 3
      let a2 ← v.get? 2
      match parseFloatDec a2 with
      | none =>
        pure ⟨some args, [.evt err [], .convErr (str "amount")], none⟩
      | some amount0 =>
        let amount := amount0 / 100
        let d5 ← v.get? 5
        let tDate? ← formatToRFC3339 d5 (str "+01:00")
        match tDate? with
        | none =>
          pure ⟨some args, [.evt err [], .convErr (str "transmission date")], none⟩
        | some tDate =>
          let d7 ← v.get? 7
          let d6 ← v.get? 6
          let pDate? ← formatToRFC3339 (d7 ++ d6) (str "+01:00")
          match pDate? with
          | none =>
            pure ⟨some args, [.evt err [], .convErr (str "payment datetime")], none⟩
          | some pDate =>
            if v.length < 35 then none
            else pure ⟨some args, [.evt err []], some (mkPayment v amount tDate pDate)⟩

/-- Rendering of an optional URL by `fmt`'s `%s` verb: a nil `*url.URL`
prints as `<nil>`. -/
def renderURL (u : Option Str) : Str :=
  match u with
  | some s => s
  | none => str "<nil>"

/-- Body of the `pathfile` written by `NewSogen` (sogen.go). -/
def pathfileContent (debugTxt logoPath certBase parcomBase parametersSogenActif : Str) : Str :=
  str "DEBUG!" ++ debugTxt ++ str "!\nD_LOGO!" ++ logoPath
  ++ str "!\nF_CERTIFICATE!" ++ certBase ++ str "!\nF_CTYPE!php!\nF_PARAM!"
  ++ parcomBase ++ str "!\nF_DEFAULT!" ++ parametersSogenActif ++ str "!\n"

/-- Body of the `parcom.<merchant_id>` file written by `NewSogen`
(sogen.go): two `f.Write` calls concatenated, the second one only when
`auto_response_url` is configured. -/
def parcomMerchantContent (cancelUrl returnUrl autoResponseUrl : Option Str) : Str :=
  str "LOGO!/bf/chrome/common/logo.png!\nCANCEL_URL!" ++ renderURL cancelUrl
  ++ str "!\nRETURN_URL!" ++ renderURL returnUrl ++ str "!\n"
  ++ (match autoResponseUrl with
      | some u => str "AUTO_REPONSE_URL!" ++ u ++ str "!\n"
      | none => [])

/-- Body of the `parcom.sogenactif` file written by `NewSogen` (sogen.go);
the merchant country fills the language and country slots. -/
def parcomSogenactifContent (country : Str) : Str :=
  str "ADVERT!sg.gif!\nBGCOLOR!ffffff!\nBLOCK_ALIGN!center!\nBLOCK_ORDER!1,2,3,4,5,6,7,8!\nCONDITION!SSL!\nCURRENCY!978!\nHEADER_FLAG!yes!\nLANGUAGE!"
  ++ country
  ++ str "!\nLOGO2!sogenactif.gif!\nMERCHANT_COUNTRY!" ++ country
  ++ str "!\nMERCHANT_LANGUAGE!" ++ country
  ++ str "!\nPAYMENT_MEANS!CB,2,VISA,2,MASTERCARD,2,PAYLIB,2!\nTARGET!_top!\nTEXTCOLOR!000000!\n"

/-- `NewSogen` (sogen.go), as a function of the caller's config (`none` for
nil), an `os.Stat` success oracle over paths, and the runtime's
`GOOS + "_" + GOARCH` text.  It returns the caller's `*Config` as left after
the call (the source trims two of its fields in place) and either an error
or the built `Sogen` together with the list of `(path, body)` files written;
`os.Create` and `File.Write` are modelled as always succeeding.  Dynamic
`err.Error()` suffixes in error texts are abbreviated away. -/
def NewSogen (c : Option Config) (statOK : Str → Bool) (osArch : Str) :
    Option Config × Except Str (Sogen × List (Str × Str)) :=
  match c with
  | none => (none, .error (str "can't initialize Sogen framework: nil config."))
  | some c0 =>
    let c1 : Config := { c0 with merchantId := trimSpaces c0.merchantId }
    if c1.merchantId = [] then (some c1, .error (str "missing merchant ID"))
    else
      let c2 : Config := { c1 with merchantsRootDir := trimSpaces c1.merchantsRootDir }
      if c2.merchantsRootDir = [] then
        (some c2, .error (str "missing merchant root directory (for config files and certificates)"))
      else if ¬ statOK c2.libraryPath then (some c2, .error (str "bad library_path: "))
      else
        let merchantBaseDir := pathJoin c2.merchantsRootDir c2.merchantId
        let certBase := pathJoin merchantBaseDir (str "certif")
        let parcomBase := pathJoin merchantBaseDir (str "parcom")
        let parametersSogenActif := pathJoin merchantBaseDir (str "parcom.sogenactif")
        let pathFile := pathJoin merchantBaseDir (str "pathfile")
        let requestFile := pathJoin (pathJoin c2.libraryPath osArch) (str "request")
        let responseFile := pathJoin (pathJoin c2.libraryPath osArch) (str "response")
        if ¬ statOK requestFile then (some c2, .error (str "request binary: "))
        else if ¬ statOK responseFile then (some c2, .error (str "request binary: "))
        else if ¬ statOK merchantBaseDir then
          (some c2, .error (str "missing certificate file in directory " ++ merchantBaseDir))
        else
          let certFile := certBase ++ '.' :: c2.merchantCountry ++ '.' :: c2.merchantId ++ str ".php"
          if ¬ statOK certFile then
            (some c2, .error (str "missing certificate file " ++ certFile))
          else
            let debugTxt := if c2.debug then str "YES" else str "NO"
            let s : Sogen :=
              { config := c2, requestFile := requestFile, responseFile := responseFile,
                merchantBaseDir := merchantBaseDir, certBase := certBase,
                parcomBase := parcomBase, parametersSogenActif := parametersSogenActif,
                pathFile := pathFile }
            let writes : List (Str × Str) :=
              [(pathFile,
                pathfileContent debugTxt c2.logoPath certBase parcomBase parametersSogenActif),
               (parcomBase ++ '.' :: c2.merchantId,
                parcomMerchantContent c2.cancelUrl c2.returnUrl c2.autoResponseUrl),
               (parametersSogenActif,
                parcomSogenactifContent c2.merchantCountry)]
            (some c2, .ok (s, writes))

/-- A character allowed inside `${...}` by the regular expression
`\x7b5c}${([A-Z_]+)}` of `replaceEnvVars` (sogen/config.go): an ASCII capital
letter or an underscore. -/
def isVarCh (c : Char) : Bool := ('A' ≤ c ∧ c ≤ 'Z') ∨ c = '_'

/-- The full text matched for a variable `v`: a dollar, an opening brace,
the name, a closing brace. -/
def varPat (v : Str) : Str := '$' :: '{' :: v ++ ['}']

/-- Does `pat` occur at the head of `s`? -/
def listStarts : Str → Str → Bool
  | [], _ => true
  | _ :: _, [] => false
  | p :: ps, c :: cs => p = c ∧ listStarts ps cs

/-- Try to match `\x7b5c}${([A-Z_]+)}` at the head of `s`; on success return
the variable name and the remainder of `s`. -/
def matchVar (s : Str) : Option (Str × Str) :=
  match s with
  | '$' :: '{' :: rest =>
    let name := rest.takeWhile isVarCh
    match rest.drop name.length with
    | '}' :: after => if name = [] then none else some (name, after)
    | _ => none
  | _ => none

/-- Every element kept by `takeWhile` satisfies the predicate. -/
theorem takeWhile_all (p : Char → Bool) (l : Str) : (l.takeWhile p).all p := by
  induction l with
  | nil => simp
  | cons c cs ih =>
    by_cases h : p c
    · simp [List.takeWhile, h, ih]
    · simp [List.takeWhile, h]

/-- Dropping as many elements as `takeWhile` keeps leaves `dropWhile`. -/
theorem drop_takeWhile_len (p : Char → Bool) (l : Str) :
    l.drop (l.takeWhile p).length = l.dropWhile p := by
  induction l with
  | nil => simp
  | cons c cs ih =>
    by_cases h : p c
    · simp [List.takeWhile, List.dropWhile, h, ih]
    · simp [List.takeWhile, List.dropWhile, h]

/-- Shape of a successful match: the input starts with the matched text, and
the name is a nonempty run of variable characters. -/
theorem matchVar_shape {s v rest} :
    matchVar s = some (v, rest) → s = varPat v ++ rest ∧ v ≠ [] ∧ v.all isVarCh := by
  unfold matchVar
  split
  case h_2 => intro h; exact absurd h (by simp)
  case h_1 r =>
    intro h
    simp only [drop_takeWhile_len] at h
    split at h
    case h_2 => exact absurd h (by simp)
    case h_1 after heq =>
      split at h
      · exact absurd h (by simp)
      case isFalse hne =>
        have hv := Option.some.inj h
        have hv1 : r.takeWhile isVarCh = v := congrArg Prod.fst hv
        have hv2 : after = rest := congrArg Prod.snd hv
        have hr : r = r.takeWhile isVarCh ++ r.dropWhile isVarCh :=
          (List.takeWhile_append_dropWhile _ _).symm
        refine ⟨?_, by rw [← hv1]; exact hne, by rw [← hv1]; exact takeWhile_all _ _⟩
        rw [varPat]
        conv_lhs => rw [hr, hv1, heq, hv2]
        simp

/-- On a successful match the remainder is shorter than the input. -/
theorem matchVar_rest_len {s v rest} (h : matchVar s = some (v, rest)) :
    rest.length < s.length := by
  obtain ⟨hs, -, -⟩ := matchVar_shape h
  subst hs
  simp [varPat]
  omega

/-- All variable occurrences found by `regexp.FindAllString` with the
pattern of `replaceEnvVars` (sogen/config.go), in order of occurrence,
reported by name.  Go's leftmost-first, non-overlapping match semantics
coincides with this scanner for this pattern. -/
def scanVars (s : Str) : List Str :=
  match h : matchVar s with
  | some (v, rest) => v :: scanVars rest
  | none =>
    match s with
    | [] => []
    | _ :: cs => scanVars cs
termination_by s.length
decreasing_by
  · exact matchVar_rest_len h
  · simp

/-- Model of Go `strings.Replace(s, pat, rep, -1)`: replace every
non-overlapping occurrence of `pat`, scanning left to right.  Callers below
always pass a nonempty `pat`; for an empty `pat` this model returns `s`
(Go would instead interleave `rep` between characters). -/
theorem listStarts_length_le : ∀ {pat s : Str}, listStarts pat s = true → pat.length ≤ s.length := by
  intro pat
  induction pat with
  | nil => simp
  | cons p ps ih =>
    intro s h
    cases s with
    | nil => simp [listStarts] at h
    | cons c cs =>
      simp only [listStarts, Bool.and_eq_true, decide_eq_true_eq] at h
      have := ih h.right
      simp only [List.length_cons]
      omega

def replaceAll (s pat rep : Str) : Str :=
  if hp : pat = [] then s
  else
    match s with
    | [] => []
    | c :: cs =>
      if hs : listStarts pat (c :: cs) then
        rep ++ replaceAll ((c :: cs).drop pat.length) pat rep
      else c :: replaceAll cs pat rep
termination_by s.length
decreasing_by
  · have h1 := listStarts_length_le hs
    have h2 : 0 < pat.length := List.length_pos.mpr hp
    simp only [List.length_drop, List.length_cons] at h1 ⊢
    omega
  · simp

/-- The loop body of `replaceEnvVars` (sogen/config.go): for each match (in
order of occurrence) look the name up with `os.Getenv`, fail if the value is
empty, otherwise globally replace the matched text by the value. -/
def substLoop (env : Str → Str) : List Str → Str → Except Str Str
  | [], s => .ok s
  | v :: vs, s =>
    if env v = [] then .error (str "error: env var " ++ varPat v ++ str " not defined")
    else substLoop env vs (replaceAll s (varPat v) (env v))

/-- `replaceEnvVars` (sogen/config.go): find all `\x7b5c}${([A-Z_]+)}`
matches, then sequentially replace each by its environment value, failing on
an empty value.  The environment is the oracle `env`; Go's `os.Getenv`
returns the empty string both for unset and for empty variables. -/
def replaceEnvVars (env : Str → Str) (src : Str) : Except Str Str :=
  substLoop env (scanVars src) src

/-- Hexadecimal digit test (Go `net/url.ishex`). -/
def isHexCh (c : Char) : Bool :=
  ('0' ≤ c ∧ c ≤ '9') ∨ ('a' ≤ c ∧ c ≤ 'f') ∨ ('A' ≤ c ∧ c ≤ 'F')

/-- Value of a hexadecimal digit (Go `net/url.unhex`). -/
def hexVal (c : Char) : ℕ :=
  if '0' ≤ c ∧ c ≤ '9' then c.toNat - 48
  else if 'a' ≤ c ∧ c ≤ 'f' then c.toNat - 97 + 10
  else c.toNat - 65 + 10

/-- Model of Go `url.QueryUnescape`: percent-decode, turning `+` into a
space; `none` on a malformed percent escape. -/
def queryUnescape : Str → Option Str
  | [] => some []
  | '%' :: a :: b :: rest =>
    if isHexCh a ∧ isHexCh b then
      (queryUnescape rest).map (fun t => Char.ofNat (16 * hexVal a + hexVal b) :: t)
    else none
  | '%' :: _ :: [] => none
  | '%' :: [] => none
  | '+' :: rest => (queryUnescape rest).map (fun t => ' ' :: t)
  | c :: rest => (queryUnescape rest).map (fun t => c :: t)

/-- `handleQuery` (sogen/config.go): unescape the URL text, substitute
environment variables, re-parse.  `url.Parse` of the substituted text is
modelled as the identity (its failures on control characters are not
modelled). -/
def handleQuery (env : Str → Str) (uri : Str) : Except Str Str :=
  match queryUnescape uri with
  | none => .error (str "invalid URL escape")
  | some qs => replaceEnvVars env qs

/-- `handleEnvVars` (sogen/config.go): run `handleQuery` over the
`cancel_url` and then the `return_url` of the config, skipping nil URLs,
stopping at the first error.  A nil config yields an error. -/
def handleEnvVars (env : Str → Str) (c : Option Config) : Except Str Config :=
  match c with
  | none => .error (str "handleEnvVars: nil config")
  | some c0 =>
    let afterCancel : Except Str Config :=
      match c0.cancelUrl with
      | none => .ok c0
      | some u =>
        match handleQuery env u with
        | .error e => .error e
        | .ok r => .ok { c0 with cancelUrl := some r }
    match afterCancel with
    | .error e => .error e
    | .ok c1 =>
      match c1.returnUrl with
      | none => .ok c1
      | some u =>
        match handleQuery env u with
        | .error e => .error e
        | .ok r => .ok { c1 with returnUrl := some r }

/-- Specification-side definition, following the words of the spec and of
claim C4: in one pass over the string, replace every occurrence of
`\x7b5c}${VARNAME}` (VARNAME built of capitals and underscores) by the value
of the environment variable VARNAME, leaving everything else unchanged. -/
def substOnce (env : Str → Str) (s : Str) : Str :=
  match h : matchVar s with
  | some (v, rest) => env v ++ substOnce env rest
  | none =>
    match s with
    | [] => []
    | c :: cs => c :: substOnce env cs
termination_by s.length
decreasing_by
  · exact matchVar_rest_len h
  · simp

/-- One-pass substitution of only the variables listed in `σ`, rendering
every other match as its original text.  This interpolates between the
original string (`σ = []`) and `substOnce` (`σ` covering all matches); the
sequential replacement loop of `replaceEnvVars` walks along it. -/
def substWith (env : Str → Str) (σ : List Str) (s : Str) : Str :=
  match h : matchVar s with
  | some (v, rest) => (if v ∈ σ then env v else varPat v) ++ substWith env σ rest
  | none =>
    match s with
    | [] => []
    | c :: cs => c :: substWith env σ cs
termination_by s.length
decreasing_by
  · exact matchVar_rest_len h
  · simp

/-- C10: `NewTransaction(c, amount)` returns nil exactly when `c` is nil or
`amount` equals 0; for every other input — including negative or fractional
amounts — it returns a non-nil transaction holding exactly that customer
pointer and that amount. -/
theorem newTransaction_spec (c : Option Customer) (cu : Customer) (a : ℚ) :
    (NewTransaction c a = none ↔ c = none ∨ a = 0) ∧
    NewTransaction (some cu) a = (if a = 0 then none else some ⟨cu, a⟩) := by
  constructor
  · cases c with
    | none => simp [NewTransaction]
    | some cu0 =>
      by_cases h : a = 0 <;> simp [NewTransaction, h]
  · by_cases h : a = 0 <;> simp [NewTransaction, h]

/-- C6: for every non-nil request `r`, `HandlePayment` invokes the response
binary with exactly two command-line parameters, in this order:
`pathfile=` followed by the merchant's pathfile path, and `message=`
followed by the `DATA` POST form value of `r` (the empty string when `DATA`
is absent). -/
theorem handlePayment_invocation (s : Sogen) (req : Request) (stdout : Str)
    (res : HPResult) (r2 : Request)
    (h : HandlePayment s (some req) stdout = some res) :
    res.invokedArgs =
      some [str "pathfile=" ++ s.pathFile,
            str "message=" ++ postFormValue req (str "DATA")] ∧
    ((∀ p ∈ r2.postForm, p.fst ≠ str "DATA") → postFormValue r2 (str "DATA") = []) := by
  constructor
  · unfold HandlePayment at h
    simp only [Option.bind_eq_bind, Option.pure_def] at h
    rcases hb1 : (splitBang stdout).get? 1 with _ | code
    · rw [hb1] at h; simp at h
    rcases hb2 : (splitBang stdout).get? 2 with _ | err
    · rw [hb1, hb2] at h; simp at h
    rw [hb1, hb2] at h
    simp only [Option.some_bind] at h
    split at h
    · simp at h; rw [← h]
    · split at h
      · simp at h; rw [← h]
      · rcases hb3 : ((splitBang stdout).drop 3).get? 2 with _ | a2
        · rw [hb3] at h; simp at h
        rw [hb3] at h
        simp only [Option.some_bind] at h
        split at h
        · simp at h; rw [← h]
        · rcases hb5 : ((splitBang stdout).drop 3).get? 5 with _ | d5
          · rw [hb5] at h; simp at h
          rw [hb5] at h
          simp only [Option.some_bind] at h
          rcases hf5 : formatToRFC3339 d5 (str "+01:00") with _ | td
          · rw [hf5] at h; simp at h
          rw [hf5] at h
          simp only [Option.some_bind] at h
          split at h
          · simp at h; rw [← h]
          · rcases hb7 : ((splitBang stdout).drop 3).get? 7 with _ | d7
            · rw [hb7] at h; simp at h
            rw [hb7] at h
            simp only [Option.some_bind] at h
            rcases hb6 : ((splitBang stdout).drop 3).get? 6 with _ | d6
            · rw [hb6] at h; simp at h
            rw [hb6] at h
            simp only [Option.some_bind] at h
            rcases hf7 : formatToRFC3339 (d7 ++ d6) (str "+01:00") with _ | pd
            · rw [hf7] at h; simp at h
            rw [hf7] at h
            simp only [Option.some_bind] at h
            split at h
            · simp at h; rw [← h]
            · split at h
              · simp at h
              · simp at h; rw [← h]
  · intro hnone
    unfold postFormValue
    rw [List.find?_eq_none.mpr]
    intro p hp
    simpa using hnone p hp

/-- The two command-line parameters `HandlePayment` passes to the response
binary. -/
def hpArgs (s : Sogen) (req : Request) : List Str :=
  [str "pathfile=" ++ s.pathFile, str "message=" ++ postFormValue req (str "DATA")]

theorem hp_panic_1 (s : Sogen) (req : Request) (stdout : Str)
    (h1 : (splitBang stdout).get? 1 = none) :
    HandlePayment s (some req) stdout = none := by
  unfold HandlePayment
  simp only [Option.bind_eq_bind, Option.pure_def]
  rw [h1]
  rfl

theorem hp_panic_2 (s : Sogen) (req : Request) (stdout : Str) (code : Str)
    (h1 : (splitBang stdout).get? 1 = some code)
    (h2 : (splitBang stdout).get? 2 = none) :
    HandlePayment s (some req) stdout = none := by
  unfold HandlePayment
  simp only [Option.bind_eq_bind, Option.pure_def]
  rw [h1, h2]
  rfl

theorem hp_run_notfound (s : Sogen) (req : Request) (stdout : Str)
    (h1 : (splitBang stdout).get? 1 = some [])
    (h2 : (splitBang stdout).get? 2 = some []) :
    HandlePayment s (some req) stdout =
      some ⟨some (hpArgs s req), [.evt (str "error: request executable not found!") []], none⟩ := by
  unfold HandlePayment
  simp only [Option.bind_eq_bind, Option.pure_def]
  rw [h1, h2]
  simp [hpArgs]

theorem hp_run_apierr (s : Sogen) (req : Request) (stdout : Str) (code err : Str)
    (h1 : (splitBang stdout).get? 1 = some code)
    (h2 : (splitBang stdout).get? 2 = some err)
    (hne : ¬(code = [] ∧ err = []))
    (hc : code ≠ str "0") :
    HandlePayment s (some req) stdout =
      some ⟨some (hpArgs s req), [.evt (str "error using API: %s") [err]], none⟩ := by
  unfold HandlePayment
  simp only [Option.bind_eq_bind, Option.pure_def]
  rw [h1, h2]
  simp [hpArgs, hne, hc]

theorem hp_zero_panic_amount (s : Sogen) (req : Request) (stdout : Str) (err : Str)
    (h1 : (splitBang stdout).get? 1 = some (str "0"))
    (h2 : (splitBang stdout).get? 2 = some err)
    (hb3 : ((splitBang stdout).drop 3).get? 2 = none) :
    HandlePayment s (some req) stdout = none := by
  unfold HandlePayment
  simp only [Option.bind_eq_bind, Option.pure_def]
  rw [h1, h2]
  simp only [Option.some_bind]
  rw [if_neg (by simp [str]), if_neg (by simp), hb3]
  rfl

theorem hp_zero_amount_fail (s : Sogen) (req : Request) (stdout : Str) (err a2 : Str)
    (h1 : (splitBang stdout).get? 1 = some (str "0"))
    (h2 : (splitBang stdout).get? 2 = some err)
    (hb3 : ((splitBang stdout).drop 3).get? 2 = some a2)
    (hpf : parseFloatDec a2 = none) :
    HandlePayment s (some req) stdout =
      some ⟨some (hpArgs s req), [.evt err [], .convErr (str "amount")], none⟩ := by
  unfold HandlePayment
  simp only [Option.bind_eq_bind, Option.pure_def]
  rw [h1, h2]
  simp only [Option.some_bind]
  rw [if_neg (by simp [str]), if_neg (by simp), hb3]
  simp only [Option.some_bind]
  rw [hpf]
  simp [hpArgs]

theorem hp_zero_panic_tdate (s : Sogen) (req : Request) (stdout : Str) (err a2 : Str) (q : ℚ)
    (h1 : (splitBang stdout).get? 1 = some (str "0"))
    (h2 : (splitBang stdout).get? 2 = some err)
    (hb3 : ((splitBang stdout).drop 3).get? 2 = some a2)
    (hpf : parseFloatDec a2 = some q)
    (hnext : (((splitBang stdout).drop 3).get? 5).bind
        (fun d5 => formatToRFC3339 d5 (str "+01:00")) = none) :
    HandlePayment s (some req) stdout = none := by
  unfold HandlePayment
  simp only [Option.bind_eq_bind, Option.pure_def]
  rw [h1, h2]
  simp only [Option.some_bind]
  rw [if_neg (by simp [str]), if_neg (by simp), hb3]
  simp only [Option.some_bind]
  rw [hpf]
  rcases hb5 : ((splitBang stdout).drop 3).get? 5 with _ | d5
  · rfl
  · rw [hb5] at hnext
    simp only [Option.some_bind] at hnext ⊢
    rw [hnext]
    rfl

theorem hp_zero_tdate_fail (s : Sogen) (req : Request) (stdout : Str) (err a2 d5 : Str) (q : ℚ)
    (h1 : (splitBang stdout).get? 1 = some (str "0"))
    (h2 : (splitBang stdout).get? 2 = some err)
    (hb3 : ((splitBang stdout).drop 3).get? 2 = some a2)
    (hpf : parseFloatDec a2 = some q)
    (hb5 : ((splitBang stdout).drop 3).get? 5 = some d5)
    (hf5 : formatToRFC3339 d5 (str "+01:00") = some none) :
    HandlePayment s (some req) stdout =
      some ⟨some (hpArgs s req), [.evt err [], .convErr (str "transmission date")], none⟩ := by
  unfold HandlePayment
  simp only [Option.bind_eq_bind, Option.pure_def]
  rw [h1, h2]
  simp only [Option.some_bind]
  rw [if_neg (by simp [str]), if_neg (by simp), hb3]
  simp only [Option.some_bind]
  rw [hpf, hb5]
  simp only [Option.some_bind]
  rw [hf5]
  simp [hpArgs]

theorem hp_zero_pdate_fail (s : Sogen) (req : Request) (stdout : Str)
    (err a2 d5 d6 d7 : Str) (q : ℚ) (td : DateTime)
    (h1 : (splitBang stdout).get? 1 = some (str "0"))
    (h2 : (splitBang stdout).get? 2 = some err)
    (hb3 : ((splitBang stdout).drop 3).get? 2 = some a2)
    (hpf : parseFloatDec a2 = some q)
    (hb5 : ((splitBang stdout).drop 3).get? 5 = some d5)
    (hf5 : formatToRFC3339 d5 (str "+01:00") = some (some td))
    (hb7 : ((splitBang stdout).drop 3).get? 7 = some d7)
    (hb6 : ((splitBang stdout).drop 3).get? 6 = some d6)
    (hf7 : formatToRFC3339 (d7 ++ d6) (str "+01:00") = some none) :
    HandlePayment s (some req) stdout =
      some ⟨some (hpArgs s req), [.evt err [], .convErr (str "payment datetime")], none⟩ := by
  unfold HandlePayment
  simp only [Option.bind_eq_bind, Option.pure_def]
  rw [h1, h2]
  simp only [Option.some_bind]
  rw [if_neg (by simp [str]), if_neg (by simp), hb3]
  simp only [Option.some_bind]
  rw [hpf, hb5]
  simp only [Option.some_bind]
  rw [hf5]
  simp only [Option.some_bind]
  rw [hb7]
  simp only [Option.some_bind]
  rw [hb6]
  simp only [Option.some_bind]
  rw [hf7]
  simp [hpArgs]

theorem hp_zero_success (s : Sogen) (req : Request) (stdout : Str)
    (err a2 d5 d6 d7 : Str) (q : ℚ) (td pd : DateTime)
    (h1 : (splitBang stdout).get? 1 = some (str "0"))
    (h2 : (splitBang stdout).get? 2 = some err)
    (hb3 : ((splitBang stdout).drop 3).get? 2 = some a2)
    (hpf : parseFloatDec a2 = some q)
    (hb5 : ((splitBang stdout).drop 3).get? 5 = some d5)
    (hf5 : formatToRFC3339 d5 (str "+01:00") = some (some td))
    (hb7 : ((splitBang stdout).drop 3).get? 7 = some d7)
    (hb6 : ((splitBang stdout).drop 3).get? 6 = some d6)
    (hf7 : formatToRFC3339 (d7 ++ d6) (str "+01:00") = some (some pd))
    (hlen : 35 ≤ ((splitBang stdout).drop 3).length) :
    HandlePayment s (some req) stdout =
      some ⟨some (hpArgs s req), [.evt err []],
        some (mkPayment ((splitBang stdout).drop 3) (q / 100) td pd)⟩ := by
  unfold HandlePayment
  simp only [Option.bind_eq_bind, Option.pure_def]
  rw [h1, h2]
  simp only [Option.some_bind]
  rw [if_neg (by simp [str]), if_neg (by simp), hb3]
  simp only [Option.some_bind]
  rw [hpf, hb5]
  simp only [Option.some_bind]
  rw [hf5]
  simp only [Option.some_bind]
  rw [hb7]
  simp only [Option.some_bind]
  rw [hb6]
  simp only [Option.some_bind]
  rw [hf7]
  simp only [Option.some_bind]
  rw [if_neg (by omega)]
  simp [hpArgs]

theorem hp_zero_panic_len (s : Sogen) (req : Request) (stdout : Str)
    (err a2 d5 d6 d7 : Str) (q : ℚ) (td pd : DateTime)
    (h1 : (splitBang stdout).get? 1 = some (str "0"))
    (h2 : (splitBang stdout).get? 2 = some err)
    (hb3 : ((splitBang stdout).drop 3).get? 2 = some a2)
    (hpf : parseFloatDec a2 = some q)
    (hb5 : ((splitBang stdout).drop 3).get? 5 = some d5)
    (hf5 : formatToRFC3339 d5 (str "+01:00") = some (some td))
    (hb7 : ((splitBang stdout).drop 3).get? 7 = some d7)
    (hb6 : ((splitBang stdout).drop 3).get? 6 = some d6)
    (hf7 : formatToRFC3339 (d7 ++ d6) (str "+01:00") = some (some pd))
    (hlen : ((splitBang stdout).drop 3).length < 35) :
    HandlePayment s (some req) stdout = none := by
  unfold HandlePayment
  simp only [Option.bind_eq_bind, Option.pure_def]
  rw [h1, h2]
  simp only [Option.some_bind]
  rw [if_neg (by simp [str]), if_neg (by simp), hb3]
  simp only [Option.some_bind]
  rw [hpf, hb5]
  simp only [Option.some_bind]
  rw [hf5]
  simp only [Option.some_bind]
  rw [hb7]
  simp only [Option.some_bind]
  rw [hb6]
  simp only [Option.some_bind]
  rw [hf7]
  simp only [Option.some_bind]
  rw [if_pos hlen]

theorem checkout_panic (s : Sogen) (t : Transaction) (stdout : Str)
    (h : (splitBang stdout).length < 4) :
    Checkout s t stdout = none := by
  unfold Checkout
  simp only [Option.bind_eq_bind, Option.pure_def]
  rcases hb1 : (splitBang stdout).get? 1 with _ | code
  · rfl
  rcases hb2 : (splitBang stdout).get? 2 with _ | err
  · simp only [Option.some_bind]
    rfl
  rcases hb3 : (splitBang stdout).get? 3 with _ | body
  · simp only [Option.some_bind]
    rfl
  · exfalso
    obtain ⟨hlt, -⟩ := List.get?_eq_some.mp hb3
    omega

theorem checkout_run_notfound (s : Sogen) (t : Transaction) (stdout : Str) (body : Str)
    (h1 : (splitBang stdout).get? 1 = some [])
    (h2 : (splitBang stdout).get? 2 = some [])
    (h3 : (splitBang stdout).get? 3 = some body) :
    Checkout s t stdout =
      some ⟨requestParams s t, [.evt (str "error: request executable not found!") []]⟩ := by
  unfold Checkout
  simp only [Option.bind_eq_bind, Option.pure_def]
  rw [h1, h2, h3]
  simp

theorem checkout_run_apierr (s : Sogen) (t : Transaction) (stdout : Str) (code err body : Str)
    (h1 : (splitBang stdout).get? 1 = some code)
    (h2 : (splitBang stdout).get? 2 = some err)
    (h3 : (splitBang stdout).get? 3 = some body)
    (hne : ¬(code = [] ∧ err = []))
    (hc : code ≠ str "0") :
    Checkout s t stdout =
      some ⟨requestParams s t, [.evt (str "error using API: %s") [err]]⟩ := by
  unfold Checkout
  simp only [Option.bind_eq_bind, Option.pure_def]
  rw [h1, h2, h3]
  simp [hne, hc]

theorem checkout_run_ok (s : Sogen) (t : Transaction) (stdout : Str) (err body : Str)
    (h1 : (splitBang stdout).get? 1 = some (str "0"))
    (h2 : (splitBang stdout).get? 2 = some err)
    (h3 : (splitBang stdout).get? 3 = some body) :
    Checkout s t stdout = some ⟨requestParams s t, [.evt err [], .evt body []]⟩ := by
  unfold Checkout
  simp only [Option.bind_eq_bind, Option.pure_def]
  rw [h1, h2, h3]
  simp [str]

theorem get?_eq_some_getD (l : List Str) (i : ℕ) (h : i < l.length) :
    l.get? i = some (l.getD i []) := by
  rcases hg : l.get? i with _ | x
  · rw [List.get?_eq_none] at hg
    omega
  · rw [List.getD_eq_get?, hg]
    rfl

theorem getD_drop (l : List Str) (n k : ℕ) :
    (l.drop n).getD k [] = l.getD (n + k) [] := by
  rw [List.getD_eq_get?, List.getD_eq_get?, List.get?_drop]

/-- C7: `HandlePayment(w, r)` returns nil when `r` is nil, without invoking
the response binary or writing to `w`; and for every non-nil `r` it returns
nil whenever the response binary's return code field differs from `"0"`,
writing an error message to `w` in that case. -/
theorem handlePayment_nil_and_error_paths (s : Sogen) (stdout : Str) (req : Request)
    (code err : Str) :
    HandlePayment s none stdout = some ⟨none, [], none⟩ ∧
    ((splitBang stdout).get? 1 = some code → (splitBang stdout).get? 2 = some err →
      code ≠ str "0" →
      HandlePayment s (some req) stdout =
        some ⟨some (hpArgs s req),
          [if code = [] ∧ err = []
           then .evt (str "error: request executable not found!") []
           else .evt (str "error using API: %s") [err]], none⟩) := by
  constructor
  · unfold HandlePayment
    rfl
  · intro h1 h2 hc
    by_cases hne : code = [] ∧ err = []
    · obtain ⟨hc0, he0⟩ := hne
      subst hc0
      subst he0
      rw [if_pos ⟨rfl, rfl⟩]
      exact hp_run_notfound s req stdout h1 h2
    · rw [if_neg hne]
      exact hp_run_apierr s req stdout code err h1 h2 hne hc

/-- Witness for C7 at a concrete input: a three-field output `!1!boom`
with return code `"1"` makes `HandlePayment` return no payment and write
the API error message. -/
theorem handlePayment_nil_and_error_paths_witness :
    HandlePayment ⟨⟨false, [], [], [], [], [], [], [], none, none, none⟩,
        [], [], [], [], [], [], str "pf"⟩ none (str "!1!boom") = some ⟨none, [], none⟩ ∧
    HandlePayment ⟨⟨false, [], [], [], [], [], [], [], none, none, none⟩,
        [], [], [], [], [], [], str "pf"⟩ (some ⟨[]⟩) (str "!1!boom") =
      some ⟨some (hpArgs ⟨⟨false, [], [], [], [], [], [], [], none, none, none⟩,
        [], [], [], [], [], [], str "pf"⟩ ⟨[]⟩),
        [.evt (str "error using API: %s") [str "boom"]], none⟩ := by
  have h := handlePayment_nil_and_error_paths
    ⟨⟨false, [], [], [], [], [], [], [], none, none, none⟩,
        [], [], [], [], [], [], str "pf"⟩ (str "!1!boom") ⟨[]⟩ (str "1") (str "boom")
  refine ⟨h.left, ?_⟩
  have h2 := h.right (by decide) (by decide) (by decide)
  rw [h2]
  decide

/-- C5: both `Checkout` and `HandlePayment` split the binary's whole stdout
on `'!'`; the return code is the field at index 1 and the error/debug text
the field at index 2; for `Checkout` the HTML body is the field at index 3
and is written only when the return code equals `"0"`, while any non-`"0"`,
non-empty return code makes both functions write an error message instead. -/
theorem split_protocol (s : Sogen) (stdout : Str) (code err : Str)
    (h1 : (splitBang stdout).get? 1 = some code)
    (h2 : (splitBang stdout).get? 2 = some err) :
    (∀ t body, (splitBang stdout).get? 3 = some body →
      (code = str "0" →
        Checkout s t stdout = some ⟨requestParams s t, [.evt err [], .evt body []]⟩) ∧
      (code ≠ str "0" → ∀ res, Checkout s t stdout = some res →
        res.writes = [.evt (str "error: request executable not found!") []] ∨
        res.writes = [.evt (str "error using API: %s") [err]]) ∧
      (code ≠ str "0" → code ≠ [] →
        Checkout s t stdout = some ⟨requestParams s t, [.evt (str "error using API: %s") [err]]⟩)) ∧
    (∀ req, code ≠ str "0" → code ≠ [] →
      HandlePayment s (some req) stdout =
        some ⟨some (hpArgs s req), [.evt (str "error using API: %s") [err]], none⟩) := by
  constructor
  · intro t body h3
    refine ⟨?_, ?_, ?_⟩
    · intro hc
      subst hc
      exact checkout_run_ok s t stdout err body h1 h2 h3
    · intro hc res hres
      by_cases hne : code = [] ∧ err = []
      · obtain ⟨hc0, he0⟩ := hne
        subst hc0; subst he0
        rw [checkout_run_notfound s t stdout body h1 h2 h3] at hres
        left
        exact (congrArg CheckoutResult.writes (Option.some.inj hres)).symm
      · rw [checkout_run_apierr s t stdout code err body h1 h2 h3 hne hc] at hres
        right
        exact (congrArg CheckoutResult.writes (Option.some.inj hres)).symm
    · intro hc hcne
      exact checkout_run_apierr s t stdout code err body h1 h2 h3
        (fun hne => hcne hne.left) hc
  · intro req hc hcne
    exact hp_run_apierr s req stdout code err h1 h2 (fun hne => hcne hne.left) hc

/-- Witness for C5 at a concrete input: on stdout `!0!dbg!BODY` the body is
written, and on `!7!eee!BODY` the API error is written by both functions. -/
theorem split_protocol_witness :
    Checkout ⟨⟨false, [], [], [], [], [], [], [], none, none, none⟩,
        [], [], [], [], [], [], str "pf"⟩
        ⟨⟨[], [], none, none⟩, 1⟩ (str "!0!dbg!BODY") =
      some ⟨requestParams ⟨⟨false, [], [], [], [], [], [], [], none, none, none⟩,
        [], [], [], [], [], [], str "pf"⟩ ⟨⟨[], [], none, none⟩, 1⟩,
        [.evt (str "dbg") [], .evt (str "BODY") []]⟩ ∧
    HandlePayment ⟨⟨false, [], [], [], [], [], [], [], none, none, none⟩,
        [], [], [], [], [], [], str "pf"⟩ (some ⟨[]⟩) (str "!7!eee!BODY") =
      some ⟨some (hpArgs ⟨⟨false, [], [], [], [], [], [], [], none, none, none⟩,
        [], [], [], [], [], [], str "pf"⟩ ⟨[]⟩),
        [.evt (str "error using API: %s") [str "eee"]], none⟩ := by
  constructor
  · have h := split_protocol ⟨⟨false, [], [], [], [], [], [], [], none, none, none⟩,
        [], [], [], [], [], [], str "pf"⟩ (str "!0!dbg!BODY") (str "0") (str "dbg")
      (by decide) (by decide)
    exact (h.left ⟨⟨[], [], none, none⟩, 1⟩ (str "BODY") (by decide)).left rfl
  · have h := split_protocol ⟨⟨false, [], [], [], [], [], [], [], none, none, none⟩,
        [], [], [], [], [], [], str "pf"⟩ (str "!7!eee!BODY") (str "7") (str "eee")
      (by decide) (by decide)
    exact h.right ⟨[]⟩ (by decide) (by decide)

/-- C1: when the response binary's stdout, split on `'!'`, has its field at
index 1 equal to `"0"` (and enough fields not to panic), `HandlePayment`
returns a non-nil `Payment` whose fields are taken from fixed positions of
that output — `MerchantId` from field 3, `MerchantCountry` from field 4,
`Amount` equal to field 5 parsed as a decimal number divided by 100,
`TransactionId` from field 6, and so on in order up to `ScoreProfile` from
field 37 — with `TransmissionDate` parsed from field 8 and `PaymentDate`
from the concatenation of fields 10 and 9, both with a fixed `+01:00`
offset; when the amount or either date fails to parse it writes a
conversion-error message and returns nil. -/
theorem handlePayment_field_map (s : Sogen) (req : Request) (stdout : Str)
    (h0 : (splitBang stdout).get? 1 = some (str "0"))
    (hlen : 38 ≤ (splitBang stdout).length) :
    let f : ℕ → Str := fun i => (splitBang stdout).getD i []
    (∀ q td pd, parseFloatDec (f 5) = some q →
      formatToRFC3339 (f 8) (str "+01:00") = some (some td) →
      formatToRFC3339 (f 10 ++ f 9) (str "+01:00") = some (some pd) →
      HandlePayment s (some req) stdout =
        some ⟨some (hpArgs s req), [.evt (f 2) []],
          some { merchantId := f 3, merchantCountry := f 4, amount := q / 100,
                 transactionId := f 6, paymentMeans := f 7,
                 transmissionDate := td, paymentDate := pd,
                 paymentCertificate := f 11, responseCode := f 12,
                 authorizationId := f 13, currencyCode := f 14,
                 cardNumber := f 15, cvvFlag := f 16, cvvResponseCode := f 17,
                 bankResponseCode := f 18, complementaryCode := f 19,
                 complementaryInfo := f 20, returnContext := f 21,
                 caddie := f 22, receiptComplement := f 23,
                 merchantLanguage := f 24, language := f 25,
                 customerId := f 26, customerEmail := f 27,
                 customerIpAddress := f 28, captureDay := f 29,
                 captureMode := f 30, data := f 31, orderValidity := f 32,
                 scoreValue := f 33, scoreColor := f 34, scoreInfo := f 35,
                 scoreThreshold := f 36, scoreProfile := f 37 }⟩) ∧
    (parseFloatDec (f 5) = none →
      HandlePayment s (some req) stdout =
        some ⟨some (hpArgs s req), [.evt (f 2) [], .convErr (str "amount")], none⟩) ∧
    (∀ q, parseFloatDec (f 5) = some q →
      formatToRFC3339 (f 8) (str "+01:00") = some none →
      HandlePayment s (some req) stdout =
        some ⟨some (hpArgs s req), [.evt (f 2) [], .convErr (str "transmission date")], none⟩) ∧
    (∀ q td, parseFloatDec (f 5) = some q →
      formatToRFC3339 (f 8) (str "+01:00") = some (some td) →
      formatToRFC3339 (f 10 ++ f 9) (str "+01:00") = some none →
      HandlePayment s (some req) stdout =
        some ⟨some (hpArgs s req), [.evt (f 2) [], .convErr (str "payment datetime")], none⟩) := by
  intro f
  have h2 : (splitBang stdout).get? 2 = some (f 2) :=
    get?_eq_some_getD _ 2 (by omega)
  have hb3 : ((splitBang stdout).drop 3).get? 2 = some (f 5) := by
    rw [List.get?_drop, get?_eq_some_getD _ 5 (by omega)]
  have hb5 : ((splitBang stdout).drop 3).get? 5 = some (f 8) := by
    rw [List.get?_drop, get?_eq_some_getD _ 8 (by omega)]
  have hb6 : ((splitBang stdout).drop 3).get? 6 = some (f 9) := by
    rw [List.get?_drop, get?_eq_some_getD _ 9 (by omega)]
  have hb7 : ((splitBang stdout).drop 3).get? 7 = some (f 10) := by
    rw [List.get?_drop, get?_eq_some_getD _ 10 (by omega)]
  refine ⟨?_, ?_, ?_, ?_⟩
  · intro q td pd hq htd hpd
    rw [hp_zero_success s req stdout (f 2) (f 5) (f 8) (f 9) (f 10) q td pd
      h0 h2 hb3 hq hb5 htd hb7 hb6 hpd (by simp only [List.length_drop]; omega)]
    congr 2
    unfold mkPayment
    simp only [getD_drop]
  · intro hq
    exact hp_zero_amount_fail s req stdout (f 2) (f 5) h0 h2 hb3 hq
  · intro q hq htd
    exact hp_zero_tdate_fail s req stdout (f 2) (f 5) (f 8) q h0 h2 hb3 hq hb5 htd
  · intro q td hq htd hpd
    exact hp_zero_pdate_fail s req stdout (f 2) (f 5) (f 8) (f 9) (f 10) q td
      h0 h2 hb3 hq hb5 htd hb7 hb6 hpd

set_option maxRecDepth 100000 in
/-- Witness for C1 at a concrete 38-field stdout with return code `"0"`:
the payment is built from the fixed field positions. -/
theorem handlePayment_field_map_witness :
    HandlePayment ⟨⟨false, [], [], [], [], [], [], [], none, none, none⟩,
        [], [], [], [], [], [], str "pf"⟩ (some ⟨[]⟩)
      (str "!0!dbg!mid!fr!499!tid!CB!20240102030405!060708!20240102!f11!f12!f13!f14!f15!f16!f17!f18!f19!f20!f21!f22!f23!f24!f25!f26!f27!f28!f29!f30!f31!f32!f33!f34!f35!f36!f37") =
      some ⟨some (hpArgs ⟨⟨false, [], [], [], [], [], [], [], none, none, none⟩,
          [], [], [], [], [], [], str "pf"⟩ ⟨[]⟩), [.evt (str "dbg") []],
        some { merchantId := str "mid", merchantCountry := str "fr",
               amount := 499 / 100,
               transactionId := str "tid", paymentMeans := str "CB",
               transmissionDate := ⟨2024, 1, 2, 3, 4, 5, str "+01:00"⟩,
               paymentDate := ⟨2024, 1, 2, 6, 7, 8, str "+01:00"⟩,
               paymentCertificate := str "f11", responseCode := str "f12",
               authorizationId := str "f13", currencyCode := str "f14",
               cardNumber := str "f15", cvvFlag := str "f16",
               cvvResponseCode := str "f17", bankResponseCode := str "f18",
               complementaryCode := str "f19", complementaryInfo := str "f20",
               returnContext := str "f21", caddie := str "f22",
               receiptComplement := str "f23", merchantLanguage := str "f24",
               language := str "f25", customerId := str "f26",
               customerEmail := str "f27", customerIpAddress := str "f28",
               captureDay := str "f29", captureMode := str "f30",
               data := str "f31", orderValidity := str "f32",
               scoreValue := str "f33", scoreColor := str "f34",
               scoreInfo := str "f35", scoreThreshold := str "f36",
               scoreProfile := str "f37" }⟩ := by
  have h := (handlePayment_field_map
      ⟨⟨false, [], [], [], [], [], [], [], none, none, none⟩,
        [], [], [], [], [], [], str "pf"⟩ ⟨[]⟩
      (str "!0!dbg!mid!fr!499!tid!CB!20240102030405!060708!20240102!f11!f12!f13!f14!f15!f16!f17!f18!f19!f20!f21!f22!f23!f24!f25!f26!f27!f28!f29!f30!f31!f32!f33!f34!f35!f36!f37")
      (by decide) (by decide)).1
      499 ⟨2024, 1, 2, 3, 4, 5, str "+01:00"⟩ ⟨2024, 1, 2, 6, 7, 8, str "+01:00"⟩
      (by decide) (by decide) (by decide)
  exact h

/-- Witness for C6 at a concrete input: with pathfile `pf` and a request
whose `DATA` form value is `xyz`, the response binary receives exactly
`pathfile=pf` and `message=xyz`. -/
theorem handlePayment_invocation_witness :
    (⟨some (hpArgs ⟨⟨false, [], [], [], [], [], [], [], none, none, none⟩,
          [], [], [], [], [], [], str "pf"⟩ ⟨[(str "DATA", str "xyz")]⟩),
        [.evt (str "error using API: %s") [str "e"]], none⟩ : HPResult).invokedArgs =
      some [str "pathfile=" ++ str "pf",
            str "message=" ++ postFormValue ⟨[(str "DATA", str "xyz")]⟩ (str "DATA")] ∧
    ((∀ p ∈ (⟨[]⟩ : Request).postForm, p.fst ≠ str "DATA") →
      postFormValue ⟨[]⟩ (str "DATA") = []) :=
  handlePayment_invocation
    ⟨⟨false, [], [], [], [], [], [], [], none, none, none⟩,
      [], [], [], [], [], [], str "pf"⟩ ⟨[(str "DATA", str "xyz")]⟩ (str "!1!e")
    ⟨some (hpArgs ⟨⟨false, [], [], [], [], [], [], [], none, none, none⟩,
        [], [], [], [], [], [], str "pf"⟩ ⟨[(str "DATA", str "xyz")]⟩),
      [.evt (str "error using API: %s") [str "e"]], none⟩ ⟨[]⟩ (by decide)

/-- C2: for every transaction built by `NewTransaction` from a customer `cu`
and amount `a`, `Checkout` invokes the request binary with `key=value`
parameters containing exactly: `merchant_id`, `merchant_country` and
`currency_code` from the configuration, `pathfile` set to the merchant's
pathfile path, `caddie` set to `cu`'s caddie, `amount` equal to the decimal
representation of `int(a*100)`, plus `customer_id` only when `cu`'s id is
non-empty, `cancel_return_url` only when `cu`'s cancel URL is non-nil, and
`normal_return_url` only when `cu`'s return URL is non-nil.  (The Go source
ranges over a map, so the order of the parameters is unspecified; the
statement is order-insensitive.) -/
theorem checkout_request_params (s : Sogen) (cu : Customer) (a : ℚ) (t : Transaction)
    (ht : NewTransaction (some cu) a = some t) :
    (∀ out res, Checkout s t out = some res → res.invokedArgs = requestParams s t) ∧
    (∀ p, p ∈ requestParams s t ↔
      (p = kv (str "merchant_id") s.config.merchantId ∨
       p = kv (str "merchant_country") s.config.merchantCountry ∨
       p = kv (str "currency_code") s.config.merchantCurrencyCode ∨
       p = kv (str "pathfile") s.pathFile ∨
       p = kv (str "caddie") cu.caddie ∨
       p = kv (str "amount") (intToStr (goTrunc (a * 100))) ∨
       (cu.id ≠ [] ∧ p = kv (str "customer_id") cu.id) ∨
       (∃ u, cu.cancelUrl = some u ∧ p = kv (str "cancel_return_url") u) ∨
       (∃ u, cu.returnUrl = some u ∧ p = kv (str "normal_return_url") u))) ∧
    (requestParams s t).length =
      6 + (if cu.id = [] then 0 else 1) + (if cu.cancelUrl = none then 0 else 1)
        + (if cu.returnUrl = none then 0 else 1) := by
  have ht2 : t = ⟨cu, a⟩ := by
    by_cases ha : a = 0
    · simp [NewTransaction, ha] at ht
    · simp [NewTransaction, ha] at ht
      exact ht.symm
  subst ht2
  refine ⟨?_, ?_, ?_⟩
  · intro out res hres
    unfold Checkout at hres
    simp only [Option.bind_eq_bind, Option.pure_def] at hres
    rcases hb1 : (splitBang out).get? 1 with _ | code
    · rw [hb1] at hres; simp at hres
    rcases hb2 : (splitBang out).get? 2 with _ | err
    · rw [hb1, hb2] at hres; simp at hres
    rcases hb3 : (splitBang out).get? 3 with _ | body
    · rw [hb1, hb2, hb3] at hres; simp at hres
    rw [hb1, hb2, hb3] at hres
    simp only [Option.some_bind] at hres
    split at hres
    · simp at hres; rw [← hres]
    · split at hres
      · simp at hres; rw [← hres]
      · simp at hres; rw [← hres]
  · intro p
    rcases hc : cu.cancelUrl with _ | cu1 <;> rcases hr : cu.returnUrl with _ | ru1 <;>
      by_cases hid : cu.id = [] <;>
      simp [requestParams, hc, hr, hid] <;> tauto
  · rcases hc : cu.cancelUrl with _ | cu1 <;> rcases hr : cu.returnUrl with _ | ru1 <;>
      by_cases hid : cu.id = [] <;>
      simp [requestParams, hc, hr, hid]

/-- Witness for C2 at a concrete input: customer `john` with a caddie and a
cancel URL, amount 5; `customer_id` is among the parameters and there are
exactly 8 of them. -/
theorem checkout_request_params_witness :
    kv (str "customer_id") (str "john") ∈
      requestParams ⟨⟨false, [], [], [], [], str "m1", str "fr", str "978", none, none, none⟩,
        [], [], [], [], [], [], str "pf"⟩
        ⟨⟨str "john", str "cad", some (str "http://c"), none⟩, 5⟩ ∧
    (requestParams ⟨⟨false, [], [], [], [], str "m1", str "fr", str "978", none, none, none⟩,
        [], [], [], [], [], [], str "pf"⟩
        ⟨⟨str "john", str "cad", some (str "http://c"), none⟩, 5⟩).length = 8 := by
  have h := checkout_request_params
    ⟨⟨false, [], [], [], [], str "m1", str "fr", str "978", none, none, none⟩,
      [], [], [], [], [], [], str "pf"⟩
    ⟨str "john", str "cad", some (str "http://c"), none⟩ 5
    ⟨⟨str "john", str "cad", some (str "http://c"), none⟩, 5⟩
    (by norm_num [NewTransaction])
  refine ⟨(h.2.1 _).mpr ?_, ?_⟩
  · exact Or.inr (Or.inr (Or.inr (Or.inr (Or.inr (Or.inr (Or.inl ⟨by decide, rfl⟩))))))
  · rw [h.2.2]
    decide

/-- Counterexample to C9: with `MerchantId = " "` and
`MerchantsRootDir = " x "`, `NewSogen` returns the missing-merchant-ID
error having trimmed `MerchantId` in place but with `MerchantsRootDir`
still untrimmed — the two trims do not both happen before validation. -/
theorem newSogen_trim_counterexample :
    (NewSogen (some ⟨false, [], [], str " x ", [], str " ", [], [], none, none, none⟩)
        (fun _ => true) (str "linux_amd64")).fst =
      some ⟨false, [], [], str " x ", [], [], [], [], none, none, none⟩ ∧
    (NewSogen (some ⟨false, [], [], str " x ", [], str " ", [], [], none, none, none⟩)
        (fun _ => true) (str "linux_amd64")).snd =
      Except.error (str "missing merchant ID") ∧
    trimSpaces (str " x ") ≠ str " x " := by
  exact ⟨by decide, by rfl, by decide⟩

/-- C9 as amended: `NewSogen` trims `MerchantId` in place and validates it;
only when the trimmed `MerchantId` is nonempty does it also trim
`MerchantsRootDir` in place; the mutations made before the first failed
validation persist even when `NewSogen` returns an error, and no other
field of the caller's config is modified (a nil config is left untouched). -/
theorem newSogen_mutation (c : Config) (statOK : Str → Bool) (osArch : Str) :
    (NewSogen (some c) statOK osArch).fst =
      some (if trimSpaces c.merchantId = []
            then { c with merchantId := trimSpaces c.merchantId }
            else { c with merchantId := trimSpaces c.merchantId,
                          merchantsRootDir := trimSpaces c.merchantsRootDir }) ∧
    (NewSogen none statOK osArch).fst = none := by
  constructor
  · unfold NewSogen
    by_cases h1 : trimSpaces c.merchantId = []
    · simp [h1]
    · simp only [h1, if_false, ite_false]
      split_ifs <;> simp [h1]
  · rfl

/-- Counterexample to C3: on a successful `NewSogen` run the function
creates exactly three files, and the certificate file
`certif.<country>.<merchant_id>.php` is not among them (it is only checked
for existence) — not four files as claimed. -/
theorem newSogen_files_counterexample :
    ((NewSogen (some ⟨false, str "/logo", str "/lib", str "mr", [],
          str "m1", str "fr", str "978", none, none, none⟩)
        (fun _ => true) (str "linux_386")).snd.toOption.map
        (fun p => p.snd.map Prod.fst)) =
      some [str "mr/m1/pathfile", str "mr/m1/parcom.m1", str "mr/m1/parcom.sogenactif"] ∧
    ¬ (str "mr/m1/certif.fr.m1.php" ∈
        [str "mr/m1/pathfile", str "mr/m1/parcom.m1", str "mr/m1/parcom.sogenactif"]) := by
  decide

/-- C3 as amended: every `NewSogen(c)` call that returns without error has
checked that the certificate file
`${merchants_rootdir}/<merchant_id>/certif.<country>.<merchant_id>.php`
exists, and has materialized exactly three text files with `!`-delimited
fields in `${merchants_rootdir}/<merchant_id>` — `pathfile`,
`parcom.<merchant_id>` and `parcom.sogenactif` — creating or overwriting
each of them. -/
theorem newSogen_writes (c c' : Config) (statOK : Str → Bool) (osArch : Str)
    (sg : Sogen) (writes : List (Str × Str))
    (h : NewSogen (some c) statOK osArch = (some c', .ok (sg, writes))) :
    writes =
      [(pathJoin (pathJoin c'.merchantsRootDir c'.merchantId) (str "pathfile"),
        pathfileContent (if c'.debug then str "YES" else str "NO") c'.logoPath
          (pathJoin (pathJoin c'.merchantsRootDir c'.merchantId) (str "certif"))
          (pathJoin (pathJoin c'.merchantsRootDir c'.merchantId) (str "parcom"))
          (pathJoin (pathJoin c'.merchantsRootDir c'.merchantId) (str "parcom.sogenactif"))),
       (pathJoin (pathJoin c'.merchantsRootDir c'.merchantId) (str "parcom") ++ '.' :: c'.merchantId,
        parcomMerchantContent c'.cancelUrl c'.returnUrl c'.autoResponseUrl),
       (pathJoin (pathJoin c'.merchantsRootDir c'.merchantId) (str "parcom.sogenactif"),
        parcomSogenactifContent c'.merchantCountry)] ∧
    statOK (pathJoin (pathJoin c'.merchantsRootDir c'.merchantId) (str "certif")
      ++ '.' :: c'.merchantCountry ++ '.' :: c'.merchantId ++ str ".php") = true := by
  unfold NewSogen at h
  by_cases h1 : trimSpaces c.merchantId = []
  · simp [h1] at h
  · simp only [h1, if_false, ite_false] at h
    by_cases h2 : trimSpaces c.merchantsRootDir = []
    · simp [h2] at h
    · simp only [h2, if_false, ite_false] at h
      split_ifs at h <;>
        simp only [Prod.mk.injEq, Option.some.injEq, Except.ok.injEq, reduceCtorEq,
          false_and, and_false] at h <;>
        · obtain ⟨hc', hsg, hw⟩ := h
          subst hc'
          subst hw
          refine ⟨by simp [*], by assumption⟩

/-- Witness for the amended C3 at a concrete successful run: the three files
written under `mr/m1` and the certificate check. -/
theorem newSogen_writes_witness :
    ([(str "mr/m1/pathfile",
        pathfileContent (if (false : Bool) then str "YES" else str "NO") (str "/logo")
          (str "mr/m1/certif") (str "mr/m1/parcom") (str "mr/m1/parcom.sogenactif")),
      (str "mr/m1/parcom.m1", parcomMerchantContent none none none),
      (str "mr/m1/parcom.sogenactif", parcomSogenactifContent (str "fr"))]
     : List (Str × Str)) =
    [(pathJoin (pathJoin (str "mr") (str "m1")) (str "pathfile"),
      pathfileContent (if (false : Bool) then str "YES" else str "NO") (str "/logo")
        (pathJoin (pathJoin (str "mr") (str "m1")) (str "certif"))
        (pathJoin (pathJoin (str "mr") (str "m1")) (str "parcom"))
        (pathJoin (pathJoin (str "mr") (str "m1")) (str "parcom.sogenactif"))),
     (pathJoin (pathJoin (str "mr") (str "m1")) (str "parcom") ++ '.' :: str "m1",
      parcomMerchantContent none none none),
     (pathJoin (pathJoin (str "mr") (str "m1")) (str "parcom.sogenactif"),
      parcomSogenactifContent (str "fr"))] ∧
    (fun (_ : Str) => true)
      (pathJoin (pathJoin (str "mr") (str "m1")) (str "certif")
        ++ '.' :: str "fr" ++ '.' :: str "m1" ++ str ".php") = true :=
  newSogen_writes
    ⟨false, str "/logo", str "/lib", str "mr", [], str "m1", str "fr", str "978", none, none, none⟩
    ⟨false, str "/logo", str "/lib", str "mr", [], str "m1", str "fr", str "978", none, none, none⟩
    (fun _ => true) (str "os") _ _ rfl

theorem hp_zero_panic_d7 (s : Sogen) (req : Request) (stdout : Str) (err a2 d5 : Str)
    (q : ℚ) (td : DateTime)
    (h1 : (splitBang stdout).get? 1 = some (str "0"))
    (h2 : (splitBang stdout).get? 2 = some err)
    (hb3 : ((splitBang stdout).drop 3).get? 2 = some a2)
    (hpf : parseFloatDec a2 = some q)
    (hb5 : ((splitBang stdout).drop 3).get? 5 = some d5)
    (hf5 : formatToRFC3339 d5 (str "+01:00") = some (some td))
    (hb7 : ((splitBang stdout).drop 3).get? 7 = none) :
    HandlePayment s (some req) stdout = none := by
  unfold HandlePayment
  simp only [Option.bind_eq_bind, Option.pure_def]
  rw [h1, h2]
  simp only [Option.some_bind]
  rw [if_neg (by simp [str]), if_neg (by simp), hb3]
  simp only [Option.some_bind]
  rw [hpf, hb5]
  simp only [Option.some_bind]
  rw [hf5]
  simp only [Option.some_bind]
  rw [hb7]
  rfl

theorem hp_zero_panic_d6 (s : Sogen) (req : Request) (stdout : Str) (err a2 d5 d7 : Str)
    (q : ℚ) (td : DateTime)
    (h1 : (splitBang stdout).get? 1 = some (str "0"))
    (h2 : (splitBang stdout).get? 2 = some err)
    (hb3 : ((splitBang stdout).drop 3).get? 2 = some a2)
    (hpf : parseFloatDec a2 = some q)
    (hb5 : ((splitBang stdout).drop 3).get? 5 = some d5)
    (hf5 : formatToRFC3339 d5 (str "+01:00") = some (some td))
    (hb7 : ((splitBang stdout).drop 3).get? 7 = some d7)
    (hb6 : ((splitBang stdout).drop 3).get? 6 = none) :
    HandlePayment s (some req) stdout = none := by
  unfold HandlePayment
  simp only [Option.bind_eq_bind, Option.pure_def]
  rw [h1, h2]
  simp only [Option.some_bind]
  rw [if_neg (by simp [str]), if_neg (by simp), hb3]
  simp only [Option.some_bind]
  rw [hpf, hb5]
  simp only [Option.some_bind]
  rw [hf5]
  simp only [Option.some_bind]
  rw [hb7]
  simp only [Option.some_bind]
  rw [hb6]
  rfl

theorem hp_zero_panic_pdate (s : Sogen) (req : Request) (stdout : Str)
    (err a2 d5 d6 d7 : Str) (q : ℚ) (td : DateTime)
    (h1 : (splitBang stdout).get? 1 = some (str "0"))
    (h2 : (splitBang stdout).get? 2 = some err)
    (hb3 : ((splitBang stdout).drop 3).get? 2 = some a2)
    (hpf : parseFloatDec a2 = some q)
    (hb5 : ((splitBang stdout).drop 3).get? 5 = some d5)
    (hf5 : formatToRFC3339 d5 (str "+01:00") = some (some td))
    (hb7 : ((splitBang stdout).drop 3).get? 7 = some d7)
    (hb6 : ((splitBang stdout).drop 3).get? 6 = some d6)
    (hf7 : formatToRFC3339 (d7 ++ d6) (str "+01:00") = none) :
    HandlePayment s (some req) stdout = none := by
  unfold HandlePayment
  simp only [Option.bind_eq_bind, Option.pure_def]
  rw [h1, h2]
  simp only [Option.some_bind]
  rw [if_neg (by simp [str]), if_neg (by simp), hb3]
  simp only [Option.some_bind]
  rw [hpf, hb5]
  simp only [Option.some_bind]
  rw [hf5]
  simp only [Option.some_bind]
  rw [hb7]
  simp only [Option.some_bind]
  rw [hb6]
  simp only [Option.some_bind]
  rw [hf7]
  rfl

theorem hp_zero_panic_tdate_none (s : Sogen) (req : Request) (stdout : Str) (err a2 d5 : Str)
    (q : ℚ)
    (h1 : (splitBang stdout).get? 1 = some (str "0"))
    (h2 : (splitBang stdout).get? 2 = some err)
    (hb3 : ((splitBang stdout).drop 3).get? 2 = some a2)
    (hpf : parseFloatDec a2 = some q)
    (hb5 : ((splitBang stdout).drop 3).get? 5 = some d5)
    (hf5 : formatToRFC3339 d5 (str "+01:00") = none) :
    HandlePayment s (some req) stdout = none := by
  apply hp_zero_panic_tdate s req stdout err a2 q h1 h2 hb3 hpf
  rw [hb5]
  simp only [Option.some_bind]
  exact hf5

/-- Counterexample to C8: on stdout `!0!!x!y!zz` — return code `"0"` and
only 6 `'!'`-separated fields — `HandlePayment` does not panic: the amount
field `zz` fails to parse first, so it writes a conversion error and
returns nil.  And on stdout `!!` — only 3 fields — `HandlePayment` reaches
the `error: request executable not found!` branch, so that branch does not
require at least four fields. -/
theorem panics_counterexample :
    HandlePayment ⟨⟨false, [], [], [], [], [], [], [], none, none, none⟩,
        [], [], [], [], [], [], str "pf"⟩ (some ⟨[]⟩) (str "!0!!x!y!zz") =
      some ⟨some (hpArgs ⟨⟨false, [], [], [], [], [], [], [], none, none, none⟩,
          [], [], [], [], [], [], str "pf"⟩ ⟨[]⟩),
        [.evt [] [], .convErr (str "amount")], none⟩ ∧
    (splitBang (str "!0!!x!y!zz")).get? 1 = some (str "0") ∧
    (splitBang (str "!0!!x!y!zz")).length < 38 ∧
    HandlePayment ⟨⟨false, [], [], [], [], [], [], [], none, none, none⟩,
        [], [], [], [], [], [], str "pf"⟩ (some ⟨[]⟩) (str "!!") =
      some ⟨some (hpArgs ⟨⟨false, [], [], [], [], [], [], [], none, none, none⟩,
          [], [], [], [], [], [], str "pf"⟩ ⟨[]⟩),
        [.evt (str "error: request executable not found!") []], none⟩ ∧
    (splitBang (str "!!")).length = 3 := by
  decide

/-- Exhaustive outcomes of `HandlePayment` when the return code is `"0"`:
either some access panics, or a conversion fails (nil payment plus a
conversion-error write), or all conversions succeed on an output with at
least 35 fields after index 2 and a payment is returned. -/
theorem hp_zero_cases (s : Sogen) (req : Request) (stdout : Str) (err : Str)
    (h1 : (splitBang stdout).get? 1 = some (str "0"))
    (h2 : (splitBang stdout).get? 2 = some err) :
    HandlePayment s (some req) stdout = none ∨
    (∃ w, HandlePayment s (some req) stdout =
      some ⟨some (hpArgs s req), [.evt err [], .convErr w], none⟩) ∨
    (∃ p, HandlePayment s (some req) stdout =
      some ⟨some (hpArgs s req), [.evt err []], some p⟩ ∧
      35 ≤ ((splitBang stdout).drop 3).length) := by
  rcases hv2 : ((splitBang stdout).drop 3).get? 2 with _ | a2
  · exact Or.inl (hp_zero_panic_amount s req stdout err h1 h2 hv2)
  rcases hq : parseFloatDec a2 with _ | q
  · exact Or.inr (Or.inl ⟨str "amount",
      hp_zero_amount_fail s req stdout err a2 h1 h2 hv2 hq⟩)
  rcases hv5 : ((splitBang stdout).drop 3).get? 5 with _ | d5
  · refine Or.inl (hp_zero_panic_tdate s req stdout err a2 q h1 h2 hv2 hq ?_)
    rw [hv5]
    rfl
  rcases hf5 : formatToRFC3339 d5 (str "+01:00") with _ | td?
  · exact Or.inl (hp_zero_panic_tdate_none s req stdout err a2 d5 q h1 h2 hv2 hq hv5 hf5)
  rcases td? with _ | td
  · exact Or.inr (Or.inl ⟨str "transmission date",
      hp_zero_tdate_fail s req stdout err a2 d5 q h1 h2 hv2 hq hv5 hf5⟩)
  rcases hv7 : ((splitBang stdout).drop 3).get? 7 with _ | d7
  · exact Or.inl (hp_zero_panic_d7 s req stdout err a2 d5 q td h1 h2 hv2 hq hv5 hf5 hv7)
  rcases hv6 : ((splitBang stdout).drop 3).get? 6 with _ | d6
  · exact Or.inl (hp_zero_panic_d6 s req stdout err a2 d5 d7 q td h1 h2 hv2 hq hv5 hf5 hv7 hv6)
  rcases hf7 : formatToRFC3339 (d7 ++ d6) (str "+01:00") with _ | pd?
  · exact Or.inl (hp_zero_panic_pdate s req stdout err a2 d5 d6 d7 q td
      h1 h2 hv2 hq hv5 hf5 hv7 hv6 hf7)
  rcases pd? with _ | pd
  · exact Or.inr (Or.inl ⟨str "payment datetime",
      hp_zero_pdate_fail s req stdout err a2 d5 d6 d7 q td h1 h2 hv2 hq hv5 hf5 hv7 hv6 hf7⟩)
  by_cases hlen : 35 ≤ ((splitBang stdout).drop 3).length
  · exact Or.inr (Or.inr ⟨mkPayment ((splitBang stdout).drop 3) (q / 100) td pd,
      hp_zero_success s req stdout err a2 d5 d6 d7 q td pd
        h1 h2 hv2 hq hv5 hf5 hv7 hv6 hf7 hlen, hlen⟩)
  · exact Or.inl (hp_zero_panic_len s req stdout err a2 d5 d6 d7 q td pd
      h1 h2 hv2 hq hv5 hf5 hv7 hv6 hf7 (by omega))

/-- C8 as amended: `Checkout` panics exactly when the stdout has fewer than
four `'!'`-separated fields (fewer than three `'!'` characters — in
particular on the empty stdout of a binary that could not run); a non-nil
`HandlePayment` panics whenever stdout has fewer than three fields; when
the return code is `"0"` and there are fewer than 38 fields it either
panics or — when the amount or a date conversion fails first — writes a
conversion error and returns nil; a transmission-date field shorter than
14 characters panics once the amount has parsed; and the
`error: request executable not found!` message is written by `Checkout`
exactly on outputs with at least four fields whose fields 1 and 2 are both
empty, while `HandlePayment` writes it already on outputs with at least
three such fields. -/
theorem panics_and_notfound (s : Sogen) (t : Transaction) (req : Request) (stdout : Str) :
    (Checkout s t stdout = none ↔ (splitBang stdout).length < 4) ∧
    ((splitBang stdout).length < 3 → HandlePayment s (some req) stdout = none) ∧
    ((splitBang stdout).get? 1 = some (str "0") → (splitBang stdout).length < 38 →
      HandlePayment s (some req) stdout = none ∨
      (∃ res w, HandlePayment s (some req) stdout = some res ∧ res.payment = none ∧
        WriteEvt.convErr w ∈ res.writes)) ∧
    (∀ a2 q d5, (splitBang stdout).get? 1 = some (str "0") →
      ((splitBang stdout).drop 3).get? 2 = some a2 → parseFloatDec a2 = some q →
      ((splitBang stdout).drop 3).get? 5 = some d5 → d5.length < 14 →
      HandlePayment s (some req) stdout = none) ∧
    ((∃ res, Checkout s t stdout = some res ∧
        res.writes = [.evt (str "error: request executable not found!") []]) ↔
      (4 ≤ (splitBang stdout).length ∧ (splitBang stdout).get? 1 = some [] ∧
        (splitBang stdout).get? 2 = some [])) ∧
    ((∃ res, HandlePayment s (some req) stdout = some res ∧
        res.writes = [.evt (str "error: request executable not found!") []] ∧
        res.payment = none) ↔
      (3 ≤ (splitBang stdout).length ∧ (splitBang stdout).get? 1 = some [] ∧
        (splitBang stdout).get? 2 = some [])) := by
  refine ⟨⟨?_, checkout_panic s t stdout⟩, ?_, ?_, ?_, ⟨?_, ?_⟩, ⟨?_, ?_⟩⟩
  · -- Checkout panic only on short outputs
    intro hnone
    by_contra hge
    push_neg at hge
    have h1 := get?_eq_some_getD (splitBang stdout) 1 (by omega)
    have h2 := get?_eq_some_getD (splitBang stdout) 2 (by omega)
    have h3 := get?_eq_some_getD (splitBang stdout) 3 (by omega)
    by_cases hb : (splitBang stdout).getD 1 [] = [] ∧ (splitBang stdout).getD 2 [] = []
    · rw [checkout_run_notfound s t stdout _ (hb.left ▸ h1) (hb.right ▸ h2) h3] at hnone
      exact Option.noConfusion hnone
    · by_cases hc : (splitBang stdout).getD 1 [] = str "0"
      · rw [checkout_run_ok s t stdout _ _ (hc ▸ h1) h2 h3] at hnone
        exact Option.noConfusion hnone
      · rw [checkout_run_apierr s t stdout _ _ _ h1 h2 h3 hb hc] at hnone
        exact Option.noConfusion hnone
  · -- HandlePayment panics on fewer than three fields
    intro hlen
    by_cases h1 : (splitBang stdout).length ≤ 1
    · exact hp_panic_1 s req stdout (List.get?_eq_none.mpr h1)
    · exact hp_panic_2 s req stdout _ (get?_eq_some_getD _ 1 (by omega))
        (List.get?_eq_none.mpr (by omega))
  · -- code "0" with fewer than 38 fields: panic or conversion error
    intro h0 hlen
    by_cases h2l : (splitBang stdout).length ≤ 2
    · exact Or.inl (hp_panic_2 s req stdout _ h0 (List.get?_eq_none.mpr h2l))
    · have h2 := get?_eq_some_getD (splitBang stdout) 2 (by omega)
      rcases hp_zero_cases s req stdout _ h0 h2 with hn | ⟨w, hw⟩ | ⟨p, hp, hplen⟩
      · exact Or.inl hn
      · exact Or.inr ⟨_, w, hw, rfl, by simp⟩
      · exfalso
        rw [List.length_drop] at hplen
        omega
  · -- a short transmission-date field panics once the amount has parsed
    intro a2 q d5 h0 hb3 hq hb5 hlen14
    obtain ⟨hvlen, -⟩ := List.get?_eq_some.mp hb3
    rw [List.length_drop] at hvlen
    have h2 := get?_eq_some_getD (splitBang stdout) 2 (by omega)
    refine hp_zero_panic_tdate_none s req stdout _ a2 d5 q h0 h2 hb3 hq hb5 ?_
    unfold formatToRFC3339
    rw [if_pos hlen14]
  · -- Checkout writes the not-found message only on ≥ 4 fields with 1,2 empty
    rintro ⟨res, hres, hw⟩
    have hge : 4 ≤ (splitBang stdout).length := by
      by_contra hlt
      rw [checkout_panic s t stdout (by omega)] at hres
      exact Option.noConfusion hres
    have h1 := get?_eq_some_getD (splitBang stdout) 1 (by omega)
    have h2 := get?_eq_some_getD (splitBang stdout) 2 (by omega)
    have h3 := get?_eq_some_getD (splitBang stdout) 3 (by omega)
    by_cases hb : (splitBang stdout).getD 1 [] = [] ∧ (splitBang stdout).getD 2 [] = []
    · exact ⟨hge, hb.left ▸ h1, hb.right ▸ h2⟩
    · exfalso
      by_cases hc : (splitBang stdout).getD 1 [] = str "0"
      · rw [checkout_run_ok s t stdout _ _ (hc ▸ h1) h2 h3] at hres
        obtain rfl := Option.some.inj hres
        simp at hw
      · rw [checkout_run_apierr s t stdout _ _ _ h1 h2 h3 hb hc] at hres
        obtain rfl := Option.some.inj hres
        simp [str] at hw
  · -- ... and it is reached whenever fields 1 and 2 exist and are empty
    rintro ⟨hge, h1, h2⟩
    exact ⟨_, checkout_run_notfound s t stdout _ h1 h2
      (get?_eq_some_getD _ 3 (by omega)), rfl⟩
  · -- HandlePayment writes the not-found message only on ≥ 3 fields with 1,2 empty
    rintro ⟨res, hres, hw, hpnone⟩
    have hge : 3 ≤ (splitBang stdout).length := by
      by_contra hlt
      push_neg at hlt
      by_cases hl1 : (splitBang stdout).length ≤ 1
      · rw [hp_panic_1 s req stdout (List.get?_eq_none.mpr hl1)] at hres
        exact Option.noConfusion hres
      · rw [hp_panic_2 s req stdout _ (get?_eq_some_getD _ 1 (by omega))
          (List.get?_eq_none.mpr (by omega))] at hres
        exact Option.noConfusion hres
    have h1 := get?_eq_some_getD (splitBang stdout) 1 (by omega)
    have h2 := get?_eq_some_getD (splitBang stdout) 2 (by omega)
    by_cases hb : (splitBang stdout).getD 1 [] = [] ∧ (splitBang stdout).getD 2 [] = []
    · exact ⟨hge, hb.left ▸ h1, hb.right ▸ h2⟩
    · exfalso
      by_cases hc : (splitBang stdout).getD 1 [] = str "0"
      · rcases hp_zero_cases s req stdout _ (hc ▸ h1) h2 with hn | ⟨w, hcw⟩ | ⟨p, hp, -⟩
        · rw [hn] at hres
          exact Option.noConfusion hres
        · rw [hcw] at hres
          obtain rfl := Option.some.inj hres
          simp at hw
        · rw [hp] at hres
          obtain rfl := Option.some.inj hres
          simp at hpnone
      · rw [hp_run_apierr s req stdout _ _ h1 h2 hb hc] at hres
        obtain rfl := Option.some.inj hres
        simp [str] at hw
  · -- ... and it is reached already on three empty-fielded fields
    rintro ⟨hge, h1, h2⟩
    exact ⟨_, hp_run_notfound s req stdout h1 h2, rfl, rfl⟩

/-- Witness for the amended C8 at concrete inputs: `Checkout` panics on the
three-field output `!!`, and `HandlePayment` panics on the two-field
output `!`. -/
theorem panics_and_notfound_witness :
    Checkout ⟨⟨false, [], [], [], [], [], [], [], none, none, none⟩,
        [], [], [], [], [], [], str "pf"⟩ ⟨⟨[], [], none, none⟩, 1⟩ (str "!!") = none ∧
    HandlePayment ⟨⟨false, [], [], [], [], [], [], [], none, none, none⟩,
        [], [], [], [], [], [], str "pf"⟩ (some ⟨[]⟩) (str "!") = none := by
  have h1 := panics_and_notfound ⟨⟨false, [], [], [], [], [], [], [], none, none, none⟩,
    [], [], [], [], [], [], str "pf"⟩ ⟨⟨[], [], none, none⟩, 1⟩ ⟨[]⟩ (str "!!")
  have h2 := panics_and_notfound ⟨⟨false, [], [], [], [], [], [], [], none, none, none⟩,
    [], [], [], [], [], [], str "pf"⟩ ⟨⟨[], [], none, none⟩, 1⟩ ⟨[]⟩ (str "!")
  exact ⟨h1.1.mpr (by decide), h2.2.1 (by decide)⟩

/-- A character that cannot take part in any `\x7b5c}${VAR}` match: not a
dollar, not a brace, not a variable character. -/
def safeChar (c : Char) : Bool :=
  ¬(c = '$' ∨ c = '{' ∨ c = '}' ∨ isVarCh c)

theorem substWith_some (env : Str → Str) (σ : List Str) {s v rest : Str}
    (h : matchVar s = some (v, rest)) :
    substWith env σ s = (if v ∈ σ then env v else varPat v) ++ substWith env σ rest := by
  rw [substWith]
  split
  next v' rest' heq =>
    rw [h] at heq
    obtain ⟨rfl, rfl⟩ := Prod.mk.injEq .. ▸ Option.some.inj heq
    rfl
  next heq =>
    rw [h] at heq
    exact Option.noConfusion heq

theorem substWith_none (env : Str → Str) (σ : List Str) {c : Char} {cs : Str}
    (h : matchVar (c :: cs) = none) :
    substWith env σ (c :: cs) = c :: substWith env σ cs := by
  rw [substWith]
  split
  next v' rest' heq =>
    rw [h] at heq
    exact Option.noConfusion heq
  next heq => rfl

theorem substWith_nil_input (env : Str → Str) (σ : List Str) :
    substWith env σ [] = [] := by
  rw [substWith]
  rfl

theorem substOnce_some (env : Str → Str) {s v rest : Str}
    (h : matchVar s = some (v, rest)) :
    substOnce env s = env v ++ substOnce env rest := by
  rw [substOnce]
  split
  next v' rest' heq =>
    rw [h] at heq
    obtain ⟨rfl, rfl⟩ := Prod.mk.injEq .. ▸ Option.some.inj heq
    rfl
  next heq =>
    rw [h] at heq
    exact Option.noConfusion heq

theorem substOnce_none (env : Str → Str) {c : Char} {cs : Str}
    (h : matchVar (c :: cs) = none) :
    substOnce env (c :: cs) = c :: substOnce env cs := by
  rw [substOnce]
  split
  next v' rest' heq =>
    rw [h] at heq
    exact Option.noConfusion heq
  next heq => rfl

theorem substOnce_nil_input (env : Str → Str) : substOnce env [] = [] := by
  rw [substOnce]
  rfl

theorem scanVars_some {s v rest : Str} (h : matchVar s = some (v, rest)) :
    scanVars s = v :: scanVars rest := by
  rw [scanVars]
  split
  next v' rest' heq =>
    rw [h] at heq
    obtain ⟨rfl, rfl⟩ := Prod.mk.injEq .. ▸ Option.some.inj heq
    rfl
  next heq =>
    rw [h] at heq
    exact Option.noConfusion heq

theorem scanVars_none {c : Char} {cs : Str} (h : matchVar (c :: cs) = none) :
    scanVars (c :: cs) = scanVars cs := by
  rw [scanVars]
  split
  next v' rest' heq =>
    rw [h] at heq
    exact Option.noConfusion heq
  next heq => rfl

theorem scanVars_nil_input : scanVars [] = [] := by
  rw [scanVars]
  rfl

/-- Induction along the scanner: to prove `P` for every string it is enough
to handle the empty string, a string with a match at its head (recursing on
the remainder), and a non-matching head character (recursing on the tail). -/
theorem str_induction (P : Str → Prop)
    (hnil : P [])
    (hsome : ∀ s v rest, matchVar s = some (v, rest) → P rest → P s)
    (hnone : ∀ c cs, matchVar (c :: cs) = none → P cs → P (c :: cs)) :
    ∀ s, P s := by
  have key : ∀ n (s : Str), s.length ≤ n → P s := by
    intro n
    induction n with
    | zero =>
      intro s hs
      have : s = [] := List.length_eq_zero.mp (by omega)
      rw [this]
      exact hnil
    | succ n ih =>
      intro s hs
      rcases hm : matchVar s with _ | ⟨v, rest⟩
      · rcases s with _ | ⟨c, cs⟩
        · exact hnil
        · exact hnone c cs hm (ih cs (by simp at hs; omega))
      · have := matchVar_rest_len hm
        exact hsome s v rest hm (ih rest (by omega))
  exact fun s => key s.length s le_rfl

theorem replaceAll_nil_input (pat rep : Str) : replaceAll [] pat rep = [] := by
  rw [replaceAll]
  split <;> rfl

theorem replaceAll_pos {pat : Str} {c : Char} {cs : Str} (rep : Str) (hp : pat ≠ [])
    (hs : listStarts pat (c :: cs) = true) :
    replaceAll (c :: cs) pat rep = rep ++ replaceAll ((c :: cs).drop pat.length) pat rep := by
  rw [replaceAll, dif_neg hp, dif_pos hs]

theorem replaceAll_neg {pat : Str} {c : Char} {cs : Str} (rep : Str) (hp : pat ≠ [])
    (hs : listStarts pat (c :: cs) = false) :
    replaceAll (c :: cs) pat rep = c :: replaceAll cs pat rep := by
  rw [replaceAll, dif_neg hp, dif_neg (by simp [hs])]

theorem listStarts_append_self : ∀ (pat y : Str), listStarts pat (pat ++ y) = true := by
  intro pat
  induction pat with
  | nil => intro y; rfl
  | cons p ps ih => intro y; simp [listStarts, ih]

theorem replaceAll_head {pat : Str} (y rep : Str) (hp : pat ≠ []) :
    replaceAll (pat ++ y) pat rep = rep ++ replaceAll y pat rep := by
  rcases pat with _ | ⟨p, ps⟩
  · exact absurd rfl hp
  · rw [List.cons_append, replaceAll_pos rep hp]
    · rw [← List.cons_append, List.drop_left]
    · rw [← List.cons_append]
      exact listStarts_append_self _ _

theorem noStart_of_noDollar : ∀ (a : Str) (y t : Str), (∀ c ∈ a, c ≠ '$') →
    ∀ i, i < a.length → listStarts ('$' :: t) ((a ++ y).drop i) = false := by
  intro a
  induction a with
  | nil => intro y t h i hi; simp at hi
  | cons c cs ih =>
    intro y t h i hi
    cases i with
    | zero =>
      simp only [List.cons_append, List.drop_zero, listStarts]
      have : ¬('$' = c) := fun hc => h c (by simp) hc.symm
      simp [this]
    | succ i =>
      rw [List.cons_append, List.drop_succ_cons]
      exact ih y t (fun d hd => h d (by simp [hd])) i (by simp at hi; omega)

theorem varCh_not_special {c : Char} (h : isVarCh c = true) :
    c ≠ '$' ∧ c ≠ '{' ∧ c ≠ '}' := by
  refine ⟨?_, ?_, ?_⟩ <;> (intro hc; subst hc; exact absurd h (by decide))

theorem capsNoStart : ∀ (w v y : Str), w.all isVarCh = true → v.all isVarCh = true →
    w ≠ v → listStarts (w ++ ['}']) (v ++ '}' :: y) = false := by
  intro w
  induction w with
  | nil =>
    intro v y hw hv hne
    rcases v with _ | ⟨a, v'⟩
    · exact absurd rfl hne
    · simp only [List.all_cons, Bool.and_eq_true] at hv
      have hA := (varCh_not_special hv.left).right.right
      simp [listStarts]
      exact fun hc => hA hc.symm
  | cons b w' ih =>
    intro v y hw hv hne
    simp only [List.all_cons, Bool.and_eq_true] at hw
    rcases v with _ | ⟨a, v'⟩
    · have := (varCh_not_special hw.left).right.right
      simp [listStarts, this]
    · simp only [List.all_cons, Bool.and_eq_true] at hv
      by_cases hba : b = a
      · subst hba
        have : w' ≠ v' := fun hh => hne (by rw [hh])
        simp [listStarts, ih v' y hw.right hv.right this]
      · simp [listStarts, hba]

theorem varPat_length (v : Str) : (varPat v).length = v.length + 3 := by
  simp [varPat]

theorem noStartInsideVarPat (v w y : Str) (hv : v.all isVarCh = true)
    (hw : w.all isVarCh = true) (hne : v ≠ w) :
    ∀ i, i < (varPat v).length → listStarts (varPat w) ((varPat v ++ y).drop i) = false := by
  intro i hi
  cases i with
  | zero =>
    simp only [List.drop_zero, varPat, List.cons_append, listStarts, List.append_assoc,
      List.cons_append]
    have := capsNoStart w v y hw hv (fun hh => hne hh.symm)
    simp only [List.singleton_append] at this
    simp [this]
  | succ i =>
    have hshape : varPat v ++ y = '$' :: (('{' :: v ++ ['}']) ++ y) := by
      simp [varPat]
    rw [hshape, List.drop_succ_cons]
    have hpat : varPat w = '$' :: ('{' :: w ++ ['}']) := by simp [varPat]
    rw [hpat]
    refine noStart_of_noDollar _ y _ ?_ i ?_
    · intro d hd
      have hd' : d = '{' ∨ d ∈ v ∨ d = '}' := by
        simp only [List.cons_append, List.mem_cons, List.mem_append,
          List.mem_singleton] at hd
        tauto
      rcases hd' with rfl | hdv | rfl
      · decide
      · exact (varCh_not_special (List.all_eq_true.mp hv d hdv)).left
      · decide
    · rw [varPat_length] at hi
      simp only [List.length_cons, List.length_append, List.length_singleton]
      omega

theorem replaceAll_append (a y pat rep : Str) (hp : pat ≠ [])
    (hns : ∀ i, i < a.length → listStarts pat ((a ++ y).drop i) = false) :
    replaceAll (a ++ y) pat rep = a ++ replaceAll y pat rep := by
  induction a with
  | nil => simp
  | cons c cs ih =>
    have h0 := hns 0 (by simp)
    rw [List.drop_zero, List.cons_append] at h0
    rw [List.cons_append, replaceAll_neg rep hp h0]
    rw [ih (fun i hi => by
      have := hns (i + 1) (by simp; omega)
      rwa [List.cons_append, List.drop_succ_cons] at this)]
    rfl

theorem scanVars_mem_shape : ∀ (s : Str), ∀ v ∈ scanVars s, v ≠ [] ∧ v.all isVarCh = true := by
  apply str_induction (fun s => ∀ v ∈ scanVars s, v ≠ [] ∧ v.all isVarCh = true)
  · simp [scanVars_nil_input]
  · intro s v rest hm ih u hu
    rw [scanVars_some hm] at hu
    rcases List.mem_cons.mp hu with rfl | hu
    · obtain ⟨-, hne, hall⟩ := matchVar_shape hm
      exact ⟨hne, hall⟩
    · exact ih u hu
  · intro c cs hm ih u hu
    rw [scanVars_none hm] at hu
    exact ih u hu

theorem substWith_empty (env : Str → Str) : ∀ s, substWith env [] s = s := by
  apply str_induction (fun s => substWith env [] s = s)
  · exact substWith_nil_input env []
  · intro s v rest hm ih
    rw [substWith_some env [] hm, ih]
    simp only [List.not_mem_nil, if_false, ite_false]
    exact ((matchVar_shape hm).left).symm
  · intro c cs hm ih
    rw [substWith_none env [] hm, ih]

theorem takeWhile_caps_append (w : Str) (x : Char) (r : Str)
    (hw : w.all isVarCh = true) (hx : isVarCh x = false) :
    (w ++ x :: r).takeWhile isVarCh = w ∧ (w ++ x :: r).dropWhile isVarCh = x :: r := by
  induction w with
  | nil => simp [List.takeWhile, List.dropWhile, hx]
  | cons c cs ih =>
    simp only [List.all_cons, Bool.and_eq_true] at hw
    have := ih hw.right
    simp [List.takeWhile, List.dropWhile, hw.left, this]

theorem matchVar_build (w r : Str) (hw : w ≠ []) (hwc : w.all isVarCh = true) :
    matchVar ('$' :: '{' :: (w ++ '}' :: r)) = some (w, r) := by
  unfold matchVar
  have h := takeWhile_caps_append w '}' r hwc (by decide)
  simp only [drop_takeWhile_len]
  rw [h.left, h.right]
  simp [hw]

theorem safeChar_spec {c : Char} (h : safeChar c = true) :
    c ≠ '$' ∧ c ≠ '{' ∧ c ≠ '}' ∧ isVarCh c = false := by
  simp only [safeChar, decide_not, Bool.not_eq_true', decide_eq_false_iff_not] at h
  push_neg at h
  exact ⟨h.left, h.right.left, h.right.right.left, by simpa using h.right.right.right⟩

theorem litRunStart (env : Str → Str) (σ : List Str)
    (hσ : ∀ v ∈ σ, env v ≠ [] ∧ (env v).all safeChar = true) :
    ∀ (w : Str), w.all isVarCh = true → ∀ cs,
      listStarts (w ++ ['}']) (substWith env σ cs) = true → ∃ r, cs = w ++ '}' :: r := by
  intro w
  induction w with
  | nil =>
    intro hw cs hst
    rcases hm : matchVar cs with _ | ⟨u, rest⟩
    · rcases cs with _ | ⟨c, cs'⟩
      · rw [substWith_nil_input] at hst
        simp [listStarts] at hst
      · rw [substWith_none env σ hm] at hst
        simp only [List.nil_append, listStarts, Bool.and_eq_true, decide_eq_true_eq] at hst
        exact ⟨cs', by rw [← hst.left]; rfl⟩
    · rw [substWith_some env σ hm] at hst
      by_cases hu : u ∈ σ
      · obtain ⟨hne, hsafe⟩ := hσ u hu
        rcases he : env u with _ | ⟨d, t⟩
        · exact absurd he hne
        · rw [if_pos hu, he] at hst
          simp only [List.nil_append, List.cons_append, listStarts, Bool.and_eq_true,
            decide_eq_true_eq] at hst
          have hd := (safeChar_spec (List.all_eq_true.mp hsafe d (by rw [he]; simp))).right.right.left
          exact absurd hst.left.symm hd
      · rw [if_neg hu] at hst
        simp [varPat, listStarts] at hst
  | cons b w' ih =>
    intro hw cs hst
    simp only [List.all_cons, Bool.and_eq_true] at hw
    rcases hm : matchVar cs with _ | ⟨u, rest⟩
    · rcases cs with _ | ⟨c, cs'⟩
      · rw [substWith_nil_input] at hst
        simp [listStarts] at hst
      · rw [substWith_none env σ hm] at hst
        simp only [List.cons_append, listStarts, Bool.and_eq_true, decide_eq_true_eq] at hst
        obtain ⟨r, hr⟩ := ih hw.right cs' hst.right
        exact ⟨r, by rw [← hst.left, hr]; rfl⟩
    · rw [substWith_some env σ hm] at hst
      by_cases hu : u ∈ σ
      · obtain ⟨hne, hsafe⟩ := hσ u hu
        rcases he : env u with _ | ⟨d, t⟩
        · exact absurd he hne
        · rw [if_pos hu, he] at hst
          simp only [List.cons_append, listStarts, Bool.and_eq_true, decide_eq_true_eq] at hst
          have hd := (safeChar_spec (List.all_eq_true.mp hsafe d (by rw [he]; simp))).right.right.right
          rw [← hst.left] at hd
          exact absurd hw.left (by rw [hd]; simp)
      · rw [if_neg hu] at hst
        simp only [varPat, List.cons_append, listStarts, Bool.and_eq_true,
          decide_eq_true_eq] at hst
        have := (varCh_not_special hw.left).left
        exact absurd hst.left this

theorem startMatch (env : Str → Str) (σ : List Str)
    (hσ : ∀ v ∈ σ, env v ≠ [] ∧ (env v).all safeChar = true)
    (w : Str) (hwne : w ≠ []) (hwc : w.all isVarCh = true) :
    ∀ s, listStarts (varPat w) (substWith env σ s) = true →
      ∃ rest, matchVar s = some (w, rest) ∧ w ∉ σ := by
  intro s hst
  rcases hm : matchVar s with _ | ⟨u, rest⟩
  · rcases s with _ | ⟨c, cs⟩
    · rw [substWith_nil_input] at hst
      simp [varPat, listStarts] at hst
    · rw [substWith_none env σ hm] at hst
      simp only [varPat, List.cons_append, listStarts, Bool.and_eq_true,
        decide_eq_true_eq] at hst
      obtain ⟨hc, hst2⟩ := hst
      rcases hm2 : matchVar cs with _ | ⟨u2, r2⟩
      · rcases cs with _ | ⟨c2, cs2⟩
        · rw [substWith_nil_input] at hst2
          simp [listStarts] at hst2
        · rw [substWith_none env σ hm2] at hst2
          simp only [listStarts, Bool.and_eq_true, decide_eq_true_eq] at hst2
          obtain ⟨hc2, hst3⟩ := hst2
          obtain ⟨r, hr⟩ := litRunStart env σ hσ w hwc cs2 hst3
          exfalso
          have hs : c :: c2 :: cs2 = '$' :: '{' :: (w ++ '}' :: r) := by
            rw [← hc, ← hc2, hr]
          rw [hs, matchVar_build w r hwne hwc] at hm
          exact Option.noConfusion hm
      · rw [substWith_some env σ hm2] at hst2
        by_cases hu2 : u2 ∈ σ
        · obtain ⟨hne2, hsafe2⟩ := hσ u2 hu2
          rcases he2 : env u2 with _ | ⟨d, t⟩
          · exact absurd he2 hne2
          · rw [if_pos hu2, he2] at hst2
            simp only [List.cons_append, listStarts, Bool.and_eq_true,
              decide_eq_true_eq] at hst2
            have hd := (safeChar_spec (List.all_eq_true.mp hsafe2 d
              (by rw [he2]; simp))).right.left
            exact absurd hst2.left.symm hd
        · rw [if_neg hu2] at hst2
          simp [varPat, listStarts] at hst2
  · rw [substWith_some env σ hm] at hst
    by_cases hu : u ∈ σ
    · obtain ⟨hne, hsafe⟩ := hσ u hu
      rcases he : env u with _ | ⟨d, t⟩
      · exact absurd he hne
      · rw [if_pos hu, he] at hst
        simp only [varPat, List.cons_append, listStarts, Bool.and_eq_true,
          decide_eq_true_eq] at hst
        have hd := (safeChar_spec (List.all_eq_true.mp hsafe d (by rw [he]; simp))).left
        exact absurd hst.left.symm hd
    · by_cases huw : u = w
      · exact ⟨rest, by rw [huw], by rw [← huw]; exact hu⟩
      · exfalso
        obtain ⟨-, hu_ne, hu_caps⟩ := matchVar_shape hm
        rw [if_neg hu] at hst
        have := noStartInsideVarPat u w (substWith env σ rest) hu_caps hwc huw 0
          (by rw [varPat_length]; omega)
        rw [List.drop_zero] at this
        rw [this] at hst
        exact Bool.noConfusion hst

/-- Key step: globally replacing one variable's pattern in a partially
substituted string extends the substitution by that variable, provided the
environment values already substituted are nonempty and inert. -/
theorem replaceAll_substWith (env : Str → Str) (σ : List Str) (w : Str)
    (hσ : ∀ v ∈ σ, env v ≠ [] ∧ (env v).all safeChar = true)
    (hwne : w ≠ []) (hwc : w.all isVarCh = true) :
    ∀ s, replaceAll (substWith env σ s) (varPat w) (env w) = substWith env (w :: σ) s := by
  have hvp : varPat w ≠ [] := by simp [varPat]
  apply str_induction
    (fun s => replaceAll (substWith env σ s) (varPat w) (env w) = substWith env (w :: σ) s)
  · rw [substWith_nil_input, substWith_nil_input, replaceAll_nil_input]
  · intro s v rest hm ih
    obtain ⟨hshape, hvne, hvcaps⟩ := matchVar_shape hm
    rw [substWith_some env σ hm, substWith_some env (w :: σ) hm]
    by_cases hv : v ∈ σ
    · obtain ⟨hne, hsafe⟩ := hσ v hv
      rw [if_pos hv, if_pos (List.mem_cons_of_mem w hv)]
      rw [replaceAll_append (env v) _ _ _ hvp ?_, ih]
      intro i hi
      have hpat : varPat w = '$' :: ('{' :: w ++ ['}']) := by simp [varPat]
      rw [hpat]
      exact noStart_of_noDollar (env v) _ _
        (fun c hc => (safeChar_spec (List.all_eq_true.mp hsafe c hc)).left) i hi
    · by_cases hvw : v = w
      · subst hvw
        rw [if_neg hv, if_pos (by simp)]
        rw [replaceAll_head _ _ hvp, ih]
      · rw [if_neg hv, if_neg (by simp [hvw, hv])]
        rw [replaceAll_append (varPat v) _ _ _ hvp
          (noStartInsideVarPat v w _ hvcaps hwc hvw), ih]
  · intro c cs hm ih
    rw [substWith_none env σ hm, substWith_none env (w :: σ) hm]
    by_cases hstart : listStarts (varPat w) (c :: substWith env σ cs) = true
    · exfalso
      have hs2 : listStarts (varPat w) (substWith env σ (c :: cs)) = true := by
        rw [substWith_none env σ hm]
        exact hstart
      obtain ⟨rest, hmm, -⟩ := startMatch env σ hσ w hwne hwc (c :: cs) hs2
      rw [hm] at hmm
      exact Option.noConfusion hmm
    · have hs : listStarts (varPat w) (c :: substWith env σ cs) = false :=
        Bool.eq_false_iff.mpr hstart
      rw [replaceAll_neg (env w) hvp hs, ih]

theorem substWith_congr (env : Str → Str) (σ1 σ2 : List Str)
    (h : ∀ x, x ∈ σ1 ↔ x ∈ σ2) : ∀ s, substWith env σ1 s = substWith env σ2 s := by
  apply str_induction (fun s => substWith env σ1 s = substWith env σ2 s)
  · rw [substWith_nil_input, substWith_nil_input]
  · intro s v rest hm ih
    rw [substWith_some env σ1 hm, substWith_some env σ2 hm, ih]
    by_cases hv : v ∈ σ1
    · rw [if_pos hv, if_pos ((h v).mp hv)]
    · rw [if_neg hv, if_neg (fun hv2 => hv ((h v).mpr hv2))]
  · intro c cs hm ih
    rw [substWith_none env σ1 hm, substWith_none env σ2 hm, ih]

theorem substWith_covers (env : Str → Str) (σ : List Str) :
    ∀ s, (∀ v ∈ scanVars s, v ∈ σ) → substWith env σ s = substOnce env s := by
  apply str_induction (fun s => (∀ v ∈ scanVars s, v ∈ σ) → substWith env σ s = substOnce env s)
  · intro _
    rw [substWith_nil_input, substOnce_nil_input]
  · intro s v rest hm ih hcov
    rw [scanVars_some hm] at hcov
    rw [substWith_some env σ hm, substOnce_some env hm,
      if_pos (hcov v (by simp)), ih (fun u hu => hcov u (by simp [hu]))]
  · intro c cs hm ih hcov
    rw [scanVars_none hm] at hcov
    rw [substWith_none env σ hm, substOnce_none env hm, ih hcov]

theorem substLoop_ok (env : Str → Str) (hsafe : ∀ v, (env v).all safeChar = true) :
    ∀ (vs σ : List Str) (s : Str),
      (∀ v ∈ vs, v ≠ [] ∧ v.all isVarCh = true ∧ env v ≠ []) →
      (∀ v ∈ σ, env v ≠ []) →
      substLoop env vs (substWith env σ s) = .ok (substWith env (vs.reverse ++ σ) s) := by
  intro vs
  induction vs with
  | nil =>
    intro σ s hvs hσ
    simp [substLoop]
  | cons v vs ih =>
    intro σ s hvs hσ
    obtain ⟨hvne, hvcaps, hvenv⟩ := hvs v (by simp)
    rw [substLoop, if_neg hvenv]
    rw [replaceAll_substWith env σ v (fun u hu => ⟨hσ u hu, hsafe u⟩) hvne hvcaps s]
    rw [ih (v :: σ) s (fun u hu => hvs u (by simp [hu]))
      (fun u hu => by rcases List.mem_cons.mp hu with rfl | hu2; exact hvenv; exact hσ u hu2)]
    rw [substWith_congr env (vs.reverse ++ v :: σ) ((v :: vs).reverse ++ σ) (by
      intro x
      simp only [List.reverse_cons, List.mem_append, List.mem_cons, List.mem_reverse,
        List.mem_singleton]
      tauto) s]

theorem substLoop_error_iff (env : Str → Str) :
    ∀ (vs : List Str) (t : Str),
      (∃ e, substLoop env vs t = .error e) ↔ ∃ v ∈ vs, env v = [] := by
  intro vs
  induction vs with
  | nil =>
    intro t
    simp [substLoop]
  | cons v vs ih =>
    intro t
    by_cases hv : env v = []
    · simp only [substLoop, if_pos hv]
      exact ⟨fun _ => ⟨v, by simp, hv⟩, fun _ => ⟨_, rfl⟩⟩
    · simp only [substLoop, if_neg hv]
      rw [ih]
      constructor
      · rintro ⟨u, hu, he⟩
        exact ⟨u, by simp [hu], he⟩
      · rintro ⟨u, hu, he⟩
        rcases List.mem_cons.mp hu with rfl | hu2
        · exact absurd he hv
        · exact ⟨u, hu2, he⟩

/-- On a safe environment, when every referenced variable is nonempty,
`replaceEnvVars` succeeds and returns exactly the one-pass substitution of
the spec. -/
theorem replaceEnvVars_ok_eq (env : Str → Str) (src : Str)
    (hsafe : ∀ v, (env v).all safeChar = true)
    (hne : ∀ v ∈ scanVars src, env v ≠ []) :
    replaceEnvVars env src = .ok (substOnce env src) := by
  unfold replaceEnvVars
  have h1 : substLoop env (scanVars src) src
      = substLoop env (scanVars src) (substWith env [] src) := by
    rw [substWith_empty env src]
  rw [h1, substLoop_ok env hsafe (scanVars src) [] src
    (fun v hv => ⟨(scanVars_mem_shape src v hv).left, (scanVars_mem_shape src v hv).right,
      hne v hv⟩) (by simp)]
  rw [substWith_covers env ((scanVars src).reverse ++ []) src (by
    intro v hv
    simp [hv])]

/-- `replaceEnvVars` fails exactly when some referenced variable's value is
empty (Go's `os.Getenv` returns the empty string both for unset and for
empty variables). -/
theorem replaceEnvVars_error_iff (env : Str → Str) (src : Str) :
    (∃ e, replaceEnvVars env src = .error e) ↔ ∃ v ∈ scanVars src, env v = [] :=
  substLoop_error_iff env (scanVars src) src

/-- A string without any variable reference passes through unchanged. -/
theorem replaceEnvVars_no_vars (env : Str → Str) (src : Str)
    (h : scanVars src = []) : replaceEnvVars env src = .ok src := by
  unfold replaceEnvVars
  rw [h]
  rfl

/-- C4: for the `cancel_url` and `return_url` values read from the config
file, `LoadConfig` (via `handleEnvVars`) replaces every occurrence of
`\x7b5c}${VARNAME}` — VARNAME made of capital letters and underscores — with
the value of the environment variable VARNAME (stated against the one-pass
substitution `substOnce`, for environments whose values contain no
pattern-forming characters), and returns an error exactly when at least one
referenced variable has an empty or undefined value; URLs without such
occurrences are left unchanged apart from query unescaping. -/
theorem loadConfig_env_substitution (env : Str → Str) (c : Config) (cu ru cu' ru' : Str)
    (hsafe : ∀ v, (env v).all safeChar = true)
    (hcu : c.cancelUrl = some cu) (hru : c.returnUrl = some ru)
    (hqc : queryUnescape cu = some cu') (hqr : queryUnescape ru = some ru') :
    ((∀ v ∈ scanVars cu', env v ≠ []) → (∀ v ∈ scanVars ru', env v ≠ []) →
      handleEnvVars env (some c) =
        .ok { c with cancelUrl := some (substOnce env cu'),
                     returnUrl := some (substOnce env ru') }) ∧
    ((∃ v, (v ∈ scanVars cu' ∨ v ∈ scanVars ru') ∧ env v = []) →
      ∃ e, handleEnvVars env (some c) = .error e) ∧
    (scanVars cu' = [] → handleQuery env cu = .ok cu') := by
  refine ⟨?_, ?_, ?_⟩
  · intro hne1 hne2
    simp only [handleEnvVars, handleQuery, hcu, hqc,
      replaceEnvVars_ok_eq env cu' hsafe hne1, hru, hqr,
      replaceEnvVars_ok_eq env ru' hsafe hne2]
  · rintro ⟨v, hvmem, hvempty⟩
    by_cases hcv : ∃ u ∈ scanVars cu', env u = []
    · obtain ⟨e, he⟩ := (replaceEnvVars_error_iff env cu').mpr hcv
      exact ⟨e, by simp only [handleEnvVars, handleQuery, hcu, hqc, he]⟩
    · push_neg at hcv
      have hv2 : v ∈ scanVars ru' := by
        rcases hvmem with h | h
        · exact absurd hvempty (hcv v h)
        · exact h
      obtain ⟨e, he⟩ := (replaceEnvVars_error_iff env ru').mpr ⟨v, hv2, hvempty⟩
      rcases hrv : replaceEnvVars env cu' with e1 | out
      · exact ⟨e1, by simp only [handleEnvVars, handleQuery, hcu, hqc, hrv]⟩
      · exact ⟨e, by simp only [handleEnvVars, handleQuery, hcu, hqc, hrv, hru, hqr, he]⟩
  · intro hnone
    unfold handleQuery
    rw [hqc]
    exact replaceEnvVars_no_vars env cu' hnone

/-- Witness for C4 at a concrete input: with `HOST=localhost` in the
environment, the cancel URL `a+${HOST}` is query-unescaped to `a ${HOST}`
and then substituted in one pass; the return URL `r` is untouched. -/
theorem loadConfig_env_substitution_witness :
    handleEnvVars (fun v => if v = str "HOST" then str "localhost" else str "e")
      (some ⟨false, [], [], [], [], [], [], [], none,
        some (str "a+${HOST}"), some (str "r")⟩) =
      .ok ⟨false, [], [], [], [], [], [], [], none,
        some (substOnce (fun v => if v = str "HOST" then str "localhost" else str "e")
          (str "a ${HOST}")),
        some (substOnce (fun v => if v = str "HOST" then str "localhost" else str "e")
          (str "r"))⟩ :=
  (loadConfig_env_substitution
      (fun v => if v = str "HOST" then str "localhost" else str "e")
      ⟨false, [], [], [], [], [], [], [], none, some (str "a+${HOST}"), some (str "r")⟩
      (str "a+${HOST}") (str "r") (str "a ${HOST}") (str "r")
      (by intro v; by_cases h : v = str "HOST" <;> simp [h] <;> decide)
      rfl rfl (by decide) (by decide)).1
      (fun v hv => by by_cases h : v = str "HOST" <;> simp [h] <;> decide)
      (fun v hv => by by_cases h : v = str "HOST" <;> simp [h] <;> decide)
